import Mathlib

/-!
The job supervisor of `main_openmp.cpp`.

A shallow embedding of `print`, of `launchSimuLocale` and of the dispatch loop of `main`.

The simulation engine, the job importer, the process environment and the logging sink are
not part of the source file.  They are represented by a `World`: a record of the answers
these collaborators give.  A call to the engine is recorded in a trace of `Event`s, and the
answer of the engine to a call (normal return, or a thrown object) may depend on every event
recorded before it, so that a second `terminate()` may behave differently from the first,
and a `terminate()` after the corrective hooks differently from one without them.
-/

namespace Dynawo

/-! ## Data model -/

/-- Severity levels of `DYN::SeverityLevel`, as switched on by `print`. -/
inductive SeverityLevel where
  | DEBUG
  | INFO
  | WARN
  | ERROR
  deriving DecidableEq

/-- Type of a `DYN::Error` (`DYN::Error::TypeError_t`); only `SIMULATION` is named in the source. -/
inductive TypeError_t where
  | SIMULATION
  | otherType (n : Nat)
  deriving DecidableEq

/-- Key of a `DYN::Error` (`DYN::KeyError_t`); the source names two of them. -/
inductive KeyError_t where
  | NoJobDefined
  | StateVariableNoReference
  | otherKey (n : Nat)
  deriving DecidableEq

/-- The objects a call may throw, classified by the `catch` clauses of the source:
`DYN::Error`, `DYN::Terminate`, `DYN::MessageError`, `const char*`, `std::string`, any other
class derived from `std::exception`, and any object of a type that none of these clauses
names (`main` keeps a `catch (...)` for those). -/
inductive Exn where
  | Error (type : TypeError_t) (key : KeyError_t) (what : String)
  | Terminate (what : String)
  | MessageError (what : String)
  | cstr (s : String)
  | string (s : String)
  | exception (what : String)
  | unlisted (tag : Nat)
  deriving DecidableEq

/-- Keys of the dictionary messages built with `DYNLog` in `launchSimuLocale`. -/
inductive LogKey where
  | LaunchingJob
  | EndOfJob
  | JobSuccess
  | ResultFolder
  deriving DecidableEq

/-- What is handed to `print`: a plain text (`what()`, a `const char*`, a `std::string`) or a
dictionary message `DYNLog(key, argument)`. -/
inductive Output where
  | text (s : String)
  | log (key : LogKey) (arg : String)
  deriving DecidableEq

/-- The mode passed to `setLostEquipmentsExportMode`. -/
inductive ExportLostEquipmentsMode where
  | EXPORT_LOSTEQUIPMENTS_NONE
  | otherMode (n : Nat)
  deriving DecidableEq

/-- A job entry: its name, the outputs directory of its outputs entry and the compile
directory of its modeler entry.  Line 227 dereferences the outputs entry without a test, so
the entry is present in every execution that reaches the test of line 289. -/
structure JobEntry where
  name : String
  outputsDirectory : String
  compileDir : String
  deriving DecidableEq

/-- The simulation context built for a job (lines 221 to 225). -/
structure SimulationContext where
  resourcesDirectory : String
  locale : String
  inputDirectory : String
  workingDirectory : String
  deriving DecidableEq

/-- The observable actions of one pass, in the order they happen. -/
inductive Event where
  | trace (level : SeverityLevel) (output : Output)
  | clog (output : Output)
  | setOutputsDirectory (job : String) (dir : String)
  | setCompileDir (job : String) (dir : String)
  | newSimulation (job : JobEntry) (context : SimulationContext)
  | init (job : JobEntry)
  | simulate (job : JobEntry)
  | terminate (job : JobEntry)
  | clean (job : JobEntry)
  | activateExportIIDM (job : JobEntry) (activate : Bool)
  | setLostEquipmentsExportMode (job : JobEntry) (mode : ExportLostEquipmentsMode)
  deriving DecidableEq

/-- The collaborators of the source file.  `importFromFile` and `getMandatoryEnvVar` return
a value or throw.  `throws` answers a call of the simulation engine: `none` when the call
returns, `some e` when it throws `e`; its first argument is the trace recorded before the
call.  `isLoggingEnabled` is the answer of `Trace::isLoggingEnabled()`.
`terminateIsStdException` tells whether a `DYN::Terminate` is caught by the clause
`catch (const std::exception&)`: the class is declared outside the source file. `dico` is
the text the dictionary gives to an error key. -/
structure World where
  importFromFile : String → Except Exn (List JobEntry)
  getMandatoryEnvVar : String → Except Exn String
  remove_file_name : String → String
  absolute : String → String
  createAbsolutePath : String → String → String
  isLoggingEnabled : Bool
  terminateIsStdException : Bool
  dico : KeyError_t → String
  throws : List Event → Event → Option Exn

/-- The state of a pass after some statements: how they ended and the trace so far. -/
abbrev Run (α : Type) := Except Exn α × List Event

/-- A block of statements: from the trace before it to the state after it. -/
abbrev Block (α : Type) := List Event → Run α

/-! ## Sequencing, calls and handlers -/

/-- Sequencing of statements: `b` runs only when `a` returned. -/
def andThen {α β : Type} (a : Block α) (b : α → Block β) : Block β := fun tr =>
  match a tr with
  | (Except.ok x, tr1) => b x tr1
  | (Except.error e, tr1) => (Except.error e, tr1)

/-- A `try` block with its handlers: `handler e` is `none` when no `catch` clause matches
the thrown object, which then propagates. -/
def tryCatch {α : Type} (body : Block α) (handler : Exn → Option (Block α)) : Block α :=
  fun tr =>
    match body tr with
    | (Except.ok x, tr1) => (Except.ok x, tr1)
    | (Except.error e, tr1) =>
      match handler e with
      | some h => h tr1
      | none => (Except.error e, tr1)

/-- A statement that returns `x`. -/
def ret {α : Type} (x : α) : Block α := fun tr => (Except.ok x, tr)

/-- The statement `throw e` (and `throw;` inside the handler of `e`). -/
def raise {α : Type} (e : Exn) : Block α := fun tr => (Except.error e, tr)

/-- A call of the simulation engine: it is recorded, and it returns or throws as the world
decides from the trace before it. -/
def call (w : World) (ev : Event) : Block Unit := fun tr =>
  match w.throws tr ev with
  | none => (Except.ok (), tr ++ [ev])
  | some e => (Except.error e, tr ++ [ev])

/-- An action that cannot throw: it is recorded. -/
def emit (ev : Event) : Block Unit := fun tr => (Except.ok (), tr ++ [ev])

/-- A lookup of the process environment. -/
def getEnv (w : World) (name : String) : Block String := fun tr =>
  (w.getMandatoryEnvVar name, tr)

/-- The text of a caught object, as the handlers pass it to `print`: `what()` for the
classes, the string itself for `const char*` and `std::string`. -/
def Exn.what : Exn → String
  | Exn.Error _ _ s => s
  | Exn.Terminate s => s
  | Exn.MessageError s => s
  | Exn.cstr s => s
  | Exn.string s => s
  | Exn.exception s => s
  | Exn.unlisted _ => ""

/-- The function `print` (lines 76 to 100): the output goes to the trace stream of the
level, and to `std::clog` as well when logging is disabled.  The source gives `level` the
value `DYN::INFO` when it is left out; the calls below pass it. -/
def print (w : World) (output : Output) (level : SeverityLevel) : Block Unit :=
  andThen
    (match level with
      | SeverityLevel.DEBUG => emit (Event.trace SeverityLevel.DEBUG output)
      | SeverityLevel.INFO => emit (Event.trace SeverityLevel.INFO output)
      | SeverityLevel.WARN => emit (Event.trace SeverityLevel.WARN output)
      | SeverityLevel.ERROR => emit (Event.trace SeverityLevel.ERROR output))
    (fun _ => if !w.isLoggingEnabled then emit (Event.clog output) else ret ())

/-- The library function `boost::lexical_cast<std::string>(int)`: the decimal string form
of an integer, with a leading minus sign when it is negative. -/
def lexical_cast (rank : Int) : String := toString rank

/-- The path rewrite of lines 227 and 228: the directory followed by the rank. -/
def suffixed (dir : String) (rank : Int) : String := dir ++ lexical_cast rank

/-! ## The handlers -/

/-- The body every handler of the first `try` block shares: `print(what, DYN::ERROR); throw;`. -/
def logAndRethrow (w : World) (e : Exn) : Block Unit :=
  andThen (print w (Output.text e.what) SeverityLevel.ERROR) fun _ => raise e

/-- The `catch` clauses of the first `try` block (lines 234 to 249), in their order:
`DYN::Error`, `DYN::MessageError`, `const char*`, `std::string`, `std::exception`.  There is
no clause for `DYN::Terminate`: it is caught by the last one when the class derives from
`std::exception`. -/
def initHandlers (w : World) (e : Exn) : Option (Block Unit) :=
  match e with
  | Exn.Error _ _ _ => some (logAndRethrow w e)
  | Exn.MessageError _ => some (logAndRethrow w e)
  | Exn.cstr _ => some (logAndRethrow w e)
  | Exn.string _ => some (logAndRethrow w e)
  | Exn.exception _ => some (logAndRethrow w e)
  | Exn.Terminate _ => if w.terminateIsStdException then some (logAndRethrow w e) else none
  | Exn.unlisted _ => none

/-- The body the handlers of the second `try` block share:
`print(what, DYN::ERROR); simulation->terminate(); throw;`. -/
def logTerminateRethrow (w : World) (simulation : JobEntry) (e : Exn) : Block Unit :=
  andThen (print w (Output.text e.what) SeverityLevel.ERROR) fun _ =>
  andThen (call w (Event.terminate simulation)) fun _ =>
  raise e

/-- The `catch` clauses of the second `try` block (lines 254 to 283), in their order:
`DYN::Error` (with the two hooks when the key is `StateVariableNoReference`),
`DYN::Terminate`, `DYN::MessageError`, `const char*`, `std::string`, `std::exception`. -/
def runHandlers (w : World) (simulation : JobEntry) (e : Exn) : Option (Block Unit) :=
  match e with
  | Exn.Error _ key _ =>
    some (andThen
      (if key = KeyError_t.StateVariableNoReference then
        andThen (call w (Event.activateExportIIDM simulation false)) fun _ =>
        call w (Event.setLostEquipmentsExportMode simulation
          ExportLostEquipmentsMode.EXPORT_LOSTEQUIPMENTS_NONE)
      else ret ())
      fun _ => logTerminateRethrow w simulation e)
  | Exn.Terminate _ => some (logTerminateRethrow w simulation e)
  | Exn.MessageError _ => some (logTerminateRethrow w simulation e)
  | Exn.cstr _ => some (logTerminateRethrow w simulation e)
  | Exn.string _ => some (logTerminateRethrow w simulation e)
  | Exn.exception _ => some (logTerminateRethrow w simulation e)
  | Exn.unlisted _ => none

/-! ## The pass -/

/-- The job entry after lines 227 and 228: both directories carry the rank. -/
def rewritten (job : JobEntry) (rank : Int) : JobEntry :=
  { job with
    outputsDirectory := suffixed job.outputsDirectory rank
    compileDir := suffixed job.compileDir rank }

/-- The context of lines 221 to 225, from the two environment values. -/
def mkContext (resources locale prefixJobFile : String) : SimulationContext :=
  { resourcesDirectory := resources
    locale := locale
    inputDirectory := prefixJobFile
    workingDirectory := prefixJobFile }

/-- Lines 219 to 228: the launch message, the context built from the two mandatory
environment values, and the rewrite of the two directories of the job entry. -/
def prepare (w : World) (rank : Int) (prefixJobFile : String) (job : JobEntry) :
    Block SimulationContext :=
  andThen (print w (Output.log LogKey.LaunchingJob job.name) SeverityLevel.INFO) fun _ =>
  andThen (getEnv w "DYNAWO_RESOURCES_DIR") fun resources =>
  andThen (getEnv w "DYNAWO_LOCALE") fun locale =>
  andThen (emit (Event.setOutputsDirectory job.name (suffixed job.outputsDirectory rank)))
    fun _ =>
  andThen (emit (Event.setCompileDir job.name (suffixed job.compileDir rank))) fun _ =>
  ret (mkContext resources locale prefixJobFile)

/-- The body of the first `try` block (lines 232 and 233): the simulation is constructed and
initialised. -/
def initBody (w : World) (simulation : JobEntry) (context : SimulationContext) : Block Unit :=
  andThen (call w (Event.newSimulation simulation context)) fun _ =>
  call w (Event.init simulation)

/-- The first `try` block with its handlers (lines 230 to 249). -/
def initStage (w : World) (simulation : JobEntry) (context : SimulationContext) : Block Unit :=
  tryCatch (initBody w simulation context) (initHandlers w)

/-- The body of the second `try` block (lines 252 and 253). -/
def runBody (w : World) (simulation : JobEntry) : Block Unit :=
  andThen (call w (Event.simulate simulation)) fun _ =>
  call w (Event.terminate simulation)

/-- The second `try` block with its handlers (lines 251 to 283). -/
def runStage (w : World) (simulation : JobEntry) : Block Unit :=
  tryCatch (runBody w simulation) (runHandlers w simulation)

/-- The statements after the second `try` block (lines 284 to 292). -/
def endOfJob (w : World) (simulation : JobEntry) (context : SimulationContext) : Block Unit :=
  andThen (call w (Event.clean simulation)) fun _ =>
  andThen (print w (Output.log LogKey.EndOfJob simulation.name) SeverityLevel.INFO) fun _ =>
  andThen (print w (Output.log LogKey.JobSuccess simulation.name) SeverityLevel.INFO) fun _ =>
  print w (Output.log LogKey.ResultFolder
    (w.createAbsolutePath simulation.outputsDirectory context.workingDirectory))
    SeverityLevel.INFO

/-- The body of the loop over the jobs (lines 219 to 292), for the thread number `rank`
returned by `omp_get_thread_num()`. -/
def jobBody (w : World) (rank : Int) (prefixJobFile : String) (job : JobEntry) : Block Unit :=
  andThen (prepare w rank prefixJobFile job) fun context =>
  andThen (initStage w (rewritten job rank) context) fun _ =>
  andThen (runStage w (rewritten job rank)) fun _ =>
  endOfJob w (rewritten job rank) context

/-- The loop of lines 216 to 293: the jobs in the order of the collection; a job that
throws ends the loop. -/
def forJobs (w : World) (rank : Int) (prefixJobFile : String) : List JobEntry → Block Unit
  | [] => ret ()
  | job :: rest =>
    andThen (jobBody w rank prefixJobFile job) fun _ => forJobs w rank prefixJobFile rest

/-- The directory of the jobs file, made absolute (line 212). -/
def prefixJobFile (w : World) (jobsFileName : String) : String :=
  w.absolute (w.remove_file_name jobsFileName)

/-- The error `DYNError(DYN::Error::SIMULATION, NoJobDefined)` of line 214. -/
def noJobDefined (w : World) : Exn :=
  Exn.Error TypeError_t.SIMULATION KeyError_t.NoJobDefined (w.dico KeyError_t.NoJobDefined)

/-- The function `launchSimuLocale` (lines 205 to 294), run by the thread of number `rank`. -/
def launchSimuLocale (w : World) (rank : Int) (jobsFileName : String) : Block Unit :=
  andThen (fun tr => (w.importFromFile jobsFileName, tr)) fun jobsCollection =>
  if jobsCollection.isEmpty then raise (noJobDefined w)
  else forJobs w rank (prefixJobFile w jobsFileName) jobsCollection

/-- One pass, observed from an empty trace. -/
def pass (w : World) (rank : Int) (jobsFileName : String) : Run Unit :=
  launchSimuLocale w rank jobsFileName []

/-- The parallel loop of `main` (lines 174 to 177): `nbThreads` iterations, each one call of
`launchSimuLocale`.  The schedule is dynamic, so which thread executes iteration `i` is not
fixed by the source: `thread i` is the number of that thread, the value
`omp_get_thread_num()` returns inside the iteration. -/
def dispatch (w : World) (nbThreads : Nat) (thread : Nat → Nat) (jobsFileName : String) :
    List (Run Unit) :=
  (List.range nbThreads).map fun i => pass w (Int.ofNat (thread i)) jobsFileName

/-! ## Vocabulary of the statements -/

/-- What one call of `print` appends to the trace. -/
def printed (w : World) (level : SeverityLevel) (output : Output) : List Event :=
  Event.trace level output :: (if w.isLoggingEnabled then [] else [Event.clog output])

/-- The corrective adjustment at the head of the handler of `DYN::Error` (lines 256 to 259);
the other handlers have none. -/
def corrective (w : World) (simulation : JobEntry) (e : Exn) : Block Unit :=
  match e with
  | Exn.Error _ key _ =>
    if key = KeyError_t.StateVariableNoReference then
      andThen (call w (Event.activateExportIIDM simulation false)) fun _ =>
      call w (Event.setLostEquipmentsExportMode simulation
        ExportLostEquipmentsMode.EXPORT_LOSTEQUIPMENTS_NONE)
    else ret ()
  | _ => ret ()

/-- The pass over the collection `before ++ job :: after` reaches `job` with the trace `tr`:
the import returned that collection and the jobs before `job` completed. -/
@[reducible]
def Reaches (w : World) (rank : Int) (jobsFileName : String) (before : List JobEntry)
    (job : JobEntry) (after : List JobEntry) (tr : List Event) : Prop :=
  w.importFromFile jobsFileName = Except.ok (before ++ job :: after) ∧
  forJobs w rank (prefixJobFile w jobsFileName) before [] = (Except.ok (), tr)

/-- The four lifecycle operations among the events. -/
def Event.isStage : Event → Bool
  | Event.init _ => true
  | Event.simulate _ => true
  | Event.terminate _ => true
  | Event.clean _ => true
  | _ => false

/-- The value a string of decimal digits denotes. -/
def decimalValue (cs : List Char) : Nat :=
  cs.foldl (fun acc c => 10 * acc + (c.toNat - 48)) 0

/-- The directories set by the rewrite events of a trace, in their order. -/
def directories : List Event → List String
  | [] => []
  | Event.setOutputsDirectory _ dir :: rest => dir :: directories rest
  | Event.setCompileDir _ dir :: rest => dir :: directories rest
  | _ :: rest => directories rest

/-- A block that sets no directory. -/
def Quiet {α : Type} (b : Block α) : Prop :=
  ∀ tr, directories (b tr).2 = directories tr

/-- The two directories of a job entry as imported. -/
def importedDirectories (job : JobEntry) : List String :=
  [job.outputsDirectory, job.compileDir]

/-- The directories of the imported collection, job after job; none when the import
throws. -/
def originalDirectories (w : World) (jobsFileName : String) : List String :=
  match w.importFromFile jobsFileName with
  | Except.ok jobs => jobs.flatMap importedDirectories
  | Except.error _ => []

/-- The trace of lines 219 to 228 for a job: the launch message and the two rewrites. -/
def entering (w : World) (rank : Int) (job : JobEntry) : List Event :=
  printed w SeverityLevel.INFO (Output.log LogKey.LaunchingJob job.name) ++
  [Event.setOutputsDirectory job.name (suffixed job.outputsDirectory rank),
   Event.setCompileDir job.name (suffixed job.compileDir rank)]

/-- The trace of a job all of whose stages succeed. -/
def jobTrace (w : World) (rank : Int) (pfx resources locale : String) (job : JobEntry) :
    List Event :=
  entering w rank job ++
  [Event.newSimulation (rewritten job rank) (mkContext resources locale pfx),
   Event.init (rewritten job rank),
   Event.simulate (rewritten job rank),
   Event.terminate (rewritten job rank),
   Event.clean (rewritten job rank)] ++
  printed w SeverityLevel.INFO (Output.log LogKey.EndOfJob job.name) ++
  printed w SeverityLevel.INFO (Output.log LogKey.JobSuccess job.name) ++
  printed w SeverityLevel.INFO (Output.log LogKey.ResultFolder
    (w.createAbsolutePath (suffixed job.outputsDirectory rank) pfx))

/-- Every stage of every job of the list succeeds when the pass invokes it, the jobs being
started from the trace `tr`: the construction of the simulation, `init`, `simulate`,
`terminate` and `clean` all return. -/
def StagesSucceed (w : World) (rank : Int) (pfx resources locale : String) :
    List JobEntry → List Event → Prop
  | [], _ => True
  | job :: rest, tr =>
    w.throws (tr ++ entering w rank job)
      (Event.newSimulation (rewritten job rank) (mkContext resources locale pfx)) = none ∧
    w.throws (tr ++ entering w rank job ++
      [Event.newSimulation (rewritten job rank) (mkContext resources locale pfx)])
      (Event.init (rewritten job rank)) = none ∧
    w.throws (tr ++ entering w rank job ++
      [Event.newSimulation (rewritten job rank) (mkContext resources locale pfx),
       Event.init (rewritten job rank)])
      (Event.simulate (rewritten job rank)) = none ∧
    w.throws (tr ++ entering w rank job ++
      [Event.newSimulation (rewritten job rank) (mkContext resources locale pfx),
       Event.init (rewritten job rank), Event.simulate (rewritten job rank)])
      (Event.terminate (rewritten job rank)) = none ∧
    w.throws (tr ++ entering w rank job ++
      [Event.newSimulation (rewritten job rank) (mkContext resources locale pfx),
       Event.init (rewritten job rank), Event.simulate (rewritten job rank),
       Event.terminate (rewritten job rank)])
      (Event.clean (rewritten job rank)) = none ∧
    StagesSucceed w rank pfx resources locale rest
      (tr ++ jobTrace w rank pfx resources locale job)

/-- The lifecycle operations of a job whose stages all succeed, in their order. -/
def lifecycle (rank : Int) (job : JobEntry) : List Event :=
  [Event.init (rewritten job rank), Event.simulate (rewritten job rank),
   Event.terminate (rewritten job rank), Event.clean (rewritten job rank)]

/-! ## Sample worlds -/

/-- A sample job. -/
def jobA : JobEntry := { name := "A", outputsDirectory := "outA", compileDir := "compileA" }

/-- A second sample job. -/
def jobB : JobEntry := { name := "B", outputsDirectory := "outB", compileDir := "compileB" }

/-- A world whose import returns `jobs`, whose environment is set, whose logging is disabled
(as line 172 of `main` leaves it) and whose engine answers by `throws`. -/
def sampleWorld (jobs : List JobEntry) (throws : List Event → Event → Option Exn) : World :=
  { importFromFile := fun _ => Except.ok jobs
    getMandatoryEnvVar := fun name =>
      Except.ok (if name = "DYNAWO_LOCALE" then "en_GB" else "/resources")
    remove_file_name := fun _ => "."
    absolute := fun _ => "/work"
    createAbsolutePath := fun path dir => dir ++ "/" ++ path
    isLoggingEnabled := false
    terminateIsStdException := true
    dico := fun _ => "no job defined"
    throws := throws }

/-- An engine none of whose calls throws. -/
def neverThrows : List Event → Event → Option Exn := fun _ _ => none

/-- An engine whose `init` throws `e`. -/
def initThrows (e : Exn) : List Event → Event → Option Exn := fun _ ev =>
  match ev with
  | Event.init _ => some e
  | _ => none

/-- An engine whose `simulate` throws `e`. -/
def simulateThrows (e : Exn) : List Event → Event → Option Exn := fun _ ev =>
  match ev with
  | Event.simulate _ => some e
  | _ => none

/-- An engine whose `simulate` throws `e` and whose `terminate` throws `e2`. -/
def simulateAndTerminateThrow (e e2 : Exn) : List Event → Event → Option Exn := fun _ ev =>
  match ev with
  | Event.simulate _ => some e
  | Event.terminate _ => some e2
  | _ => none

/-- An engine whose first `terminate` on a simulation throws `e`; a later one returns. -/
def firstTerminateThrows (e : Exn) : List Event → Event → Option Exn := fun tr ev =>
  match ev with
  | Event.terminate sim => if Event.terminate sim ∈ tr then none else some e
  | _ => none

/-- An engine whose `clean` throws `e`. -/
def cleanThrows (e : Exn) : List Event → Event → Option Exn := fun _ ev =>
  match ev with
  | Event.clean _ => some e
  | _ => none

/-- The sample job as the thread of number 0 hands it to the simulation. -/
def simA : JobEntry := rewritten jobA 0

/-- The context of the sample job in a sample world. -/
def ctxA : SimulationContext := mkContext "/resources" "en_GB" "/work"

/-- The trace of a sample world when the first `try` block of the sample job is entered. -/
def enteredA : List Event :=
  [Event.trace SeverityLevel.INFO (Output.log LogKey.LaunchingJob "A"),
   Event.clog (Output.log LogKey.LaunchingJob "A"),
   Event.setOutputsDirectory "A" "outA0",
   Event.setCompileDir "A" "compileA0"]

/-- The trace of a sample world when the second `try` block of the sample job is entered. -/
def initialisedA : List Event := enteredA ++ [Event.newSimulation simA ctxA, Event.init simA]

/-- The events at `ERROR` level. -/
def Event.isError : Event → Bool
  | Event.trace SeverityLevel.ERROR _ => true
  | _ => false

/-- A `DYN::Error` for an unresolved reference of a state variable. -/
def noReference : Exn :=
  Exn.Error TypeError_t.SIMULATION KeyError_t.StateVariableNoReference "no reference"

/-- An engine whose `simulate` throws `e` and whose first hook throws `e1`. -/
def simulateAndHookThrow (e e1 : Exn) : List Event → Event → Option Exn := fun _ ev =>
  match ev with
  | Event.simulate _ => some e
  | Event.activateExportIIDM _ _ => some e1
  | _ => none

/-- The trace of the handler of the sample job up to its best-effort `terminate`, for a
caught object of text `text` and a trace `h` at the throw. -/
def loggedA (h : List Event) (text : String) : List Event :=
  h ++ [Event.trace SeverityLevel.ERROR (Output.text text), Event.clog (Output.text text)]

/-! ## Basic facts about blocks -/

theorem print_eq (w : World) (output : Output) (level : SeverityLevel) (tr : List Event) :
    print w output level tr = (Except.ok (), tr ++ printed w level output) := by
  cases level <;> cases h : w.isLoggingEnabled <;>
    simp [print, andThen, emit, ret, printed, h]

theorem call_ok {w : World} {ev : Event} {tr : List Event} (h : w.throws tr ev = none) :
    call w ev tr = (Except.ok (), tr ++ [ev]) := by
  simp [call, h]

theorem call_error {w : World} {ev : Event} {tr : List Event} {e : Exn}
    (h : w.throws tr ev = some e) : call w ev tr = (Except.error e, tr ++ [ev]) := by
  simp [call, h]

theorem call_trace (w : World) (ev : Event) (tr : List Event) :
    (call w ev tr).2 = tr ++ [ev] := by
  unfold call; split <;> rfl

theorem call_ok_inv {w : World} {ev : Event} {tr tr1 : List Event}
    (h : call w ev tr = (Except.ok (), tr1)) : w.throws tr ev = none ∧ tr1 = tr ++ [ev] := by
  unfold call at h
  split at h
  · rename_i h0; exact ⟨h0, by simpa using (congrArg Prod.snd h).symm⟩
  · simp at h

theorem call_error_inv {w : World} {ev : Event} {tr tr1 : List Event} {e : Exn}
    (h : call w ev tr = (Except.error e, tr1)) :
    w.throws tr ev = some e ∧ tr1 = tr ++ [ev] := by
  unfold call at h
  split at h
  · simp at h
  · rename_i e0 h0
    simp only [Prod.mk.injEq, Except.error.injEq] at h
    exact ⟨by rw [h0, h.1], h.2.symm⟩

/-- The trace a successful `prepare` leaves, and the context it returns. -/
theorem prepare_ok_inv {w : World} {rank : Int} {pfx : String} {job : JobEntry}
    {tr tr0 : List Event} {ctx : SimulationContext}
    (h : prepare w rank pfx job tr = (Except.ok ctx, tr0)) :
    tr0 = tr ++ entering w rank job := by
  simp only [prepare, andThen, print_eq, getEnv, emit, ret] at h
  cases hres : w.getMandatoryEnvVar "DYNAWO_RESOURCES_DIR" with
  | error e => simp [hres] at h
  | ok resources =>
    cases hloc : w.getMandatoryEnvVar "DYNAWO_LOCALE" with
    | error e => simp [hres, hloc] at h
    | ok locale =>
      simp only [hres, hloc, Prod.mk.injEq] at h
      rw [← h.2]; simp [entering]

theorem forJobs_cons (w : World) (rank : Int) (pfx : String) (job : JobEntry)
    (rest : List JobEntry) (tr : List Event) :
    forJobs w rank pfx (job :: rest) tr =
      andThen (jobBody w rank pfx job) (fun _ => forJobs w rank pfx rest) tr := rfl

theorem pass_of_reaches {w : World} {rank : Int} {file : String} {before after : List JobEntry}
    {job : JobEntry} {tr : List Event} (h : Reaches w rank file before job after tr) :
    pass w rank file =
      andThen (jobBody w rank (prefixJobFile w file) job)
        (fun _ => forJobs w rank (prefixJobFile w file) after) tr := by
  obtain ⟨himp, hpre⟩ := h
  have key : ∀ (l : List JobEntry) (t0 : List Event),
      forJobs w rank (prefixJobFile w file) l t0 = (Except.ok (), tr) →
      forJobs w rank (prefixJobFile w file) (l ++ job :: after) t0 =
        andThen (jobBody w rank (prefixJobFile w file) job)
          (fun _ => forJobs w rank (prefixJobFile w file) after) tr := by
    intro l
    induction l with
    | nil =>
      intro t0 h0
      simp only [forJobs, ret, Prod.mk.injEq, true_and] at h0
      subst h0
      simp [forJobs]
    | cons j l ih =>
      intro t0 h0
      rw [List.cons_append, forJobs_cons]
      rw [forJobs_cons] at h0
      cases hj : jobBody w rank (prefixJobFile w file) j t0 with
      | mk r t1 =>
        cases r with
        | error e => simp [andThen, hj] at h0
        | ok x =>
          simp only [andThen, hj] at h0 ⊢
          exact ih t1 h0
  have hne : (before ++ job :: after).isEmpty = false := by
    cases before <;> rfl
  simp only [pass, launchSimuLocale, andThen, himp, hne]
  exact key before [] hpre

/-- A job that throws ends the pass with what it threw. -/
theorem pass_of_job_error {w : World} {rank : Int} {file : String}
    {before after : List JobEntry} {job : JobEntry} {tr t : List Event} {e : Exn}
    (h : Reaches w rank file before job after tr)
    (hjob : jobBody w rank (prefixJobFile w file) job tr = (Except.error e, t)) :
    pass w rank file = (Except.error e, t) := by
  rw [pass_of_reaches h]
  simp [andThen, hjob]


theorem digitChar_toNat : ∀ k : Fin 10, (Nat.digitChar k.val).toNat - 48 = k.val := by decide

theorem toDigitsCore_value : ∀ (fuel n : Nat) (ds : List Char), n < fuel →
    ∃ l, Nat.toDigitsCore 10 fuel n ds = l ++ ds ∧ decimalValue l = n := by
  intro fuel
  induction fuel with
  | zero => intro n ds h; omega
  | succ fuel ih =>
    intro n ds h
    have hd := digitChar_toNat ⟨n % 10, Nat.mod_lt _ (by decide)⟩
    simp only [Nat.toDigitsCore]
    split
    · refine ⟨[Nat.digitChar (n % 10)], rfl, ?_⟩
      simp only [decimalValue, List.foldl] at *
      omega
    · obtain ⟨l, hl, hv⟩ := ih (n / 10) (Nat.digitChar (n % 10) :: ds) (by omega)
      refine ⟨l ++ [Nat.digitChar (n % 10)], by simp [hl], ?_⟩
      simp only [decimalValue, List.foldl_append, List.foldl] at *
      omega

theorem decimalValue_repr (n : Nat) : decimalValue (Nat.repr n).data = n := by
  obtain ⟨l, hl, hv⟩ := toDigitsCore_value (n + 1) n [] (by omega)
  simp only [Nat.repr, Nat.toDigits, List.asString, hl, List.append_nil, hv]

theorem decimalValue_lexical_cast (R : Int) (h : 0 ≤ R) :
    decimalValue (lexical_cast R).data = R.toNat := by
  obtain ⟨n, rfl⟩ := Int.eq_ofNat_of_zero_le h
  exact decimalValue_repr n

theorem suffixed_ne (dir : String) (R1 R2 : Int) (h1 : 0 ≤ R1) (h2 : 0 ≤ R2) (hne : R1 ≠ R2) :
    suffixed dir R1 ≠ suffixed dir R2 := by
  intro h
  have hd : (suffixed dir R1).data = (suffixed dir R2).data := by rw [h]
  simp only [suffixed, String.data_append] at hd
  have hl := List.append_cancel_left hd
  have e1 := decimalValue_lexical_cast R1 h1
  have e2 := decimalValue_lexical_cast R2 h2
  rw [hl, e2] at e1
  omega

theorem initBody_error_inv {w : World} {sim : JobEntry} {ctx : SimulationContext}
    {tr0 tr1 : List Event} {e : Exn}
    (h : initBody w sim ctx tr0 = (Except.error e, tr1)) :
    tr1 = tr0 ++ [Event.newSimulation sim ctx] ∨
    tr1 = tr0 ++ [Event.newSimulation sim ctx, Event.init sim] := by
  unfold initBody andThen at h
  cases hn : w.throws tr0 (Event.newSimulation sim ctx) with
  | some e1 =>
    rw [call_error hn] at h
    simp only [Prod.mk.injEq] at h
    exact Or.inl h.2.symm
  | none =>
    rw [call_ok hn] at h
    have := (call_error_inv h).2
    exact Or.inr (by rw [this]; simp)

/-- How the first `try` block ends when its body throws: the handler, when there is one,
prints the text of the object at `ERROR` level and throws the object again. -/
theorem initStage_of_error {w : World} {sim : JobEntry} {ctx : SimulationContext}
    {tr0 tr1 : List Event} {e : Exn}
    (h : initBody w sim ctx tr0 = (Except.error e, tr1)) :
    initStage w sim ctx tr0 =
      (Except.error e, tr1 ++ (if (initHandlers w e).isSome then
        printed w SeverityLevel.ERROR (Output.text e.what) else [])) := by
  unfold initStage tryCatch
  rw [h]
  cases e <;> simp [initHandlers, logAndRethrow, andThen, print_eq, raise]
  cases w.terminateIsStdException <;> simp [andThen, print_eq, raise]

theorem jobBody_of_init_error {w : World} {rank : Int} {pfx : String} {job : JobEntry}
    {tr tr0 tr1 : List Event} {ctx : SimulationContext} {e : Exn}
    (hprep : prepare w rank pfx job tr = (Except.ok ctx, tr0))
    (hinit : initBody w (rewritten job rank) ctx tr0 = (Except.error e, tr1)) :
    jobBody w rank pfx job tr =
      (Except.error e, tr1 ++ (if (initHandlers w e).isSome then
        printed w SeverityLevel.ERROR (Output.text e.what) else [])) := by
  simp only [jobBody, andThen, hprep, initStage_of_error hinit]

theorem ret_andThen {α β : Type} (x : α) (f : α → Block β) : andThen (ret x) f = f x := rfl

/-- The handlers of the second `try` block, read as one: every listed kind gets the
corrective adjustment of its clause, then the shared body. -/
theorem runHandlers_eq (w : World) (sim : JobEntry) (e : Exn) :
    runHandlers w sim e =
      match e with
      | Exn.unlisted _ => none
      | _ => some (andThen (corrective w sim e) fun _ => logTerminateRethrow w sim e) := by
  cases e <;> simp [runHandlers, corrective, ret_andThen]

theorem runHandlers_of_isSome {w : World} {sim : JobEntry} {e : Exn}
    (h : (runHandlers w sim e).isSome) :
    runHandlers w sim e =
      some (andThen (corrective w sim e) fun _ => logTerminateRethrow w sim e) := by
  rw [runHandlers_eq] at h ⊢
  cases e <;> simp at h ⊢

/-- The shared body of the handlers: the message, the best-effort `terminate`, and what is
thrown in the end: the object `terminate` threw if it threw, the caught object otherwise. -/
theorem logTerminateRethrow_eq (w : World) (sim : JobEntry) (e : Exn) (h : List Event) :
    logTerminateRethrow w sim e h =
      (Except.error ((w.throws (h ++ printed w SeverityLevel.ERROR (Output.text e.what))
          (Event.terminate sim)).getD e),
        h ++ printed w SeverityLevel.ERROR (Output.text e.what) ++ [Event.terminate sim]) := by
  simp only [logTerminateRethrow, andThen, print_eq]
  cases ht : w.throws (h ++ printed w SeverityLevel.ERROR (Output.text e.what))
      (Event.terminate sim) with
  | none => simp [call_ok ht, raise]
  | some e1 => simp [call_error ht]

theorem runStage_handled {w : World} {sim : JobEntry} {e : Exn} {tr1 h h3 : List Event}
    (hbody : runBody w sim tr1 = (Except.error e, h))
    (hsome : (runHandlers w sim e).isSome)
    (hhooks : corrective w sim e h = (Except.ok (), h3)) :
    runStage w sim tr1 =
      (Except.error ((w.throws (h3 ++ printed w SeverityLevel.ERROR (Output.text e.what))
          (Event.terminate sim)).getD e),
        h3 ++ printed w SeverityLevel.ERROR (Output.text e.what) ++ [Event.terminate sim]) := by
  simp only [runStage, tryCatch, hbody, runHandlers_of_isSome hsome, andThen, hhooks,
    logTerminateRethrow_eq]

theorem runStage_hook_error {w : World} {sim : JobEntry} {e e1 : Exn} {tr1 h h3 : List Event}
    (hbody : runBody w sim tr1 = (Except.error e, h))
    (hsome : (runHandlers w sim e).isSome)
    (hhooks : corrective w sim e h = (Except.error e1, h3)) :
    runStage w sim tr1 = (Except.error e1, h3) := by
  simp only [runStage, tryCatch, hbody, runHandlers_of_isSome hsome, andThen, hhooks]

theorem runStage_unhandled {w : World} {sim : JobEntry} {e : Exn} {tr1 h : List Event}
    (hbody : runBody w sim tr1 = (Except.error e, h))
    (hnone : runHandlers w sim e = none) :
    runStage w sim tr1 = (Except.error e, h) := by
  simp only [runStage, tryCatch, hbody, hnone]

theorem runBody_of_simulate_error {w : World} {sim : JobEntry} {e : Exn} {tr1 : List Event}
    (h : w.throws tr1 (Event.simulate sim) = some e) :
    runBody w sim tr1 = (Except.error e, tr1 ++ [Event.simulate sim]) := by
  simp only [runBody, andThen, call_error h]

theorem runBody_of_terminate_error {w : World} {sim : JobEntry} {e : Exn} {tr1 : List Event}
    (h : w.throws tr1 (Event.simulate sim) = none)
    (ht : w.throws (tr1 ++ [Event.simulate sim]) (Event.terminate sim) = some e) :
    runBody w sim tr1 =
      (Except.error e, tr1 ++ [Event.simulate sim, Event.terminate sim]) := by
  simp only [runBody, andThen, call_ok h, call_error ht, List.append_assoc,
    List.singleton_append]

theorem runBody_ok {w : World} {sim : JobEntry} {tr1 : List Event}
    (h : w.throws tr1 (Event.simulate sim) = none)
    (ht : w.throws (tr1 ++ [Event.simulate sim]) (Event.terminate sim) = none) :
    runBody w sim tr1 =
      (Except.ok (), tr1 ++ [Event.simulate sim, Event.terminate sim]) := by
  simp only [runBody, andThen, call_ok h, call_ok ht, List.append_assoc,
    List.singleton_append]

/-- What the corrective adjustment may add to the trace: calls of the two hooks only. -/
theorem corrective_trace (w : World) (sim : JobEntry) (e : Exn) (h : List Event) :
    ∃ l, (corrective w sim e h).2 = h ++ l ∧
      ∀ s, Event.terminate s ∉ l ∧ Event.clean s ∉ l := by
  unfold corrective
  split
  · split
    · simp only [andThen]
      cases h1 : w.throws h (Event.activateExportIIDM sim false) with
      | some e1 => exact ⟨_, by rw [call_error h1], by simp⟩
      | none =>
        rw [call_ok h1]
        exact ⟨_, by simp only [call_trace, List.append_assoc]; rfl, by simp⟩
    · exact ⟨[], by simp [ret], by simp⟩
  · exact ⟨[], by simp [ret], by simp⟩

/-- The job body, once the job is prepared and initialised: what the second `try` block
throws ends the job. -/
theorem jobBody_of_run_error {w : World} {rank : Int} {pfx : String} {job : JobEntry}
    {tr tr0 tr1 t : List Event} {ctx : SimulationContext} {e : Exn}
    (hprep : prepare w rank pfx job tr = (Except.ok ctx, tr0))
    (hinit : initBody w (rewritten job rank) ctx tr0 = (Except.ok (), tr1))
    (hrun : runStage w (rewritten job rank) tr1 = (Except.error e, t)) :
    jobBody w rank pfx job tr = (Except.error e, t) := by
  simp only [jobBody, andThen, hprep, initStage, tryCatch, hinit, hrun]

theorem initBody_ok_inv {w : World} {sim : JobEntry} {ctx : SimulationContext}
    {tr0 tr1 : List Event} (h : initBody w sim ctx tr0 = (Except.ok (), tr1)) :
    tr1 = tr0 ++ [Event.newSimulation sim ctx, Event.init sim] := by
  unfold initBody andThen at h
  cases hn : w.throws tr0 (Event.newSimulation sim ctx) with
  | some e1 => rw [call_error hn] at h; simp at h
  | none =>
    rw [call_ok hn] at h
    rw [(call_ok_inv h).2]; simp

theorem split_at_last {α : Type} {x : α} : ∀ {l pre post : List α}, x ∉ l →
    l ++ [x] = pre ++ x :: post → pre = l ∧ post = [] := by
  intro l
  induction l with
  | nil =>
    intro pre post _ h
    cases pre with
    | nil => simp at h; exact ⟨rfl, h⟩
    | cons p pre => simp at h
  | cons a l ih =>
    intro pre post hx h
    cases pre with
    | nil =>
      simp only [List.cons_append, List.nil_append, List.cons.injEq] at h
      exact absurd h.1.symm (by intro hxa; exact hx (by simp [hxa]))
    | cons p pre =>
      simp only [List.cons_append, List.cons.injEq] at h
      obtain ⟨h1, h2⟩ := ih (fun hm => hx (List.mem_cons_of_mem _ hm)) h.2
      exact ⟨by rw [h.1, h1], h2⟩

/-- The trace at the entry of the second `try` block extends the trace at the start of the
job by events that are neither `terminate` nor `clean`. -/
theorem initialised_trace {w : World} {rank : Int} {pfx : String} {job : JobEntry}
    {tr tr0 tr1 : List Event} {ctx : SimulationContext}
    (hprep : prepare w rank pfx job tr = (Except.ok ctx, tr0))
    (hinit : initBody w (rewritten job rank) ctx tr0 = (Except.ok (), tr1)) :
    ∃ s0, tr1 = tr ++ s0 ∧ ∀ s, Event.terminate s ∉ s0 ∧ Event.clean s ∉ s0 := by
  refine ⟨_, by rw [initBody_ok_inv hinit, prepare_ok_inv hprep, List.append_assoc], ?_⟩
  intro s
  cases w.isLoggingEnabled <;> simp [printed, entering]

/-- Whatever the second `try` block body throws, the block ends by throwing, and it adds no
`clean` to the trace. -/
theorem runStage_after_error {w : World} {sim : JobEntry} {e : Exn} {tr1 h : List Event}
    (hbody : runBody w sim tr1 = (Except.error e, h)) :
    ∃ e1 l, runStage w sim tr1 = (Except.error e1, h ++ l) ∧ ∀ s, Event.clean s ∉ l := by
  cases hs : runHandlers w sim e with
  | none => exact ⟨e, [], by rw [runStage_unhandled hbody hs, List.append_nil], by simp⟩
  | some b =>
    have hsome : (runHandlers w sim e).isSome := by rw [hs]; rfl
    obtain ⟨l, hl, hnot⟩ := corrective_trace w sim e h
    cases hc : corrective w sim e h with
    | mk r h3 =>
      rw [hc] at hl
      simp only at hl
      subst hl
      cases r with
      | error e1 => exact ⟨e1, l, runStage_hook_error hbody hsome hc, fun s => (hnot s).2⟩
      | ok u =>
        refine ⟨_, _, by rw [runStage_handled hbody hsome hc, List.append_assoc,
          List.append_assoc], ?_⟩
        intro s
        have := (hnot s).2
        cases w.isLoggingEnabled <;> simp [printed, this]

/-- What follows a throw of the body of the second `try` block, whichever statement of the
body threw: the pass ends by throwing; nothing of the job's trace is a `clean`; without a
handler the object propagates at once; with a handler whose corrective adjustment returns,
the message is printed, `terminate` is attempted, and the caught object is thrown again
when `terminate` returns. -/
theorem recovery_after_body_error {w : World} {rank : Int} {file : String}
    {before after : List JobEntry} {job : JobEntry} {tr tr0 tr1 h : List Event}
    {ctx : SimulationContext} {e : Exn} (tr3 : List Event)
    (hreach : Reaches w rank file before job after tr)
    (hprep : prepare w rank (prefixJobFile w file) job tr = (Except.ok ctx, tr0))
    (hinit : initBody w (rewritten job rank) ctx tr0 = (Except.ok (), tr1))
    (hbody : runBody w (rewritten job rank) tr1 = (Except.error e, h))
    (hh : ∃ l, h = tr1 ++ l ∧ ∀ s, Event.clean s ∉ l) :
    (∃ e1, (pass w rank file).1 = Except.error e1) ∧
    (∃ seg, (pass w rank file).2 = tr ++ seg ∧ ∀ sim, Event.clean sim ∉ seg) ∧
    (runHandlers w (rewritten job rank) e = none → pass w rank file = (Except.error e, h)) ∧
    ((runHandlers w (rewritten job rank) e).isSome →
      corrective w (rewritten job rank) e h = (Except.ok (), tr3) →
      (pass w rank file).2 = tr3 ++ printed w SeverityLevel.ERROR (Output.text e.what) ++
        [Event.terminate (rewritten job rank)] ∧
      (w.throws (tr3 ++ printed w SeverityLevel.ERROR (Output.text e.what))
          (Event.terminate (rewritten job rank)) = none →
        (pass w rank file).1 = Except.error e)) := by
  obtain ⟨e1, l, hstage, hl⟩ := runStage_after_error hbody
  obtain ⟨s0, hs0, hn0⟩ := initialised_trace hprep hinit
  obtain ⟨l0, hl0, hnl0⟩ := hh
  refine ⟨?_, ?_, ?_, ?_⟩
  · rw [pass_of_job_error hreach (jobBody_of_run_error hprep hinit hstage)]
    exact ⟨e1, rfl⟩
  · rw [pass_of_job_error hreach (jobBody_of_run_error hprep hinit hstage)]
    refine ⟨s0 ++ (l0 ++ l), by rw [hl0, hs0]; simp only [List.append_assoc], ?_⟩
    intro sim
    have h1 := (hn0 sim).2
    have h2 := hnl0 sim
    have h3 := hl sim
    simp [h1, h2, h3]
  · intro hnone
    rw [pass_of_job_error hreach (jobBody_of_run_error hprep hinit
      (runStage_unhandled hbody hnone))]
  · intro hsome hhooks
    rw [pass_of_job_error hreach (jobBody_of_run_error hprep hinit
      (runStage_handled hbody hsome hhooks))]
    refine ⟨rfl, ?_⟩
    intro hret
    rw [hret]
    rfl

theorem prepare_ok {w : World} {rank : Int} {pfx resources locale : String} {job : JobEntry}
    (tr : List Event)
    (hres : w.getMandatoryEnvVar "DYNAWO_RESOURCES_DIR" = Except.ok resources)
    (hloc : w.getMandatoryEnvVar "DYNAWO_LOCALE" = Except.ok locale) :
    prepare w rank pfx job tr =
      (Except.ok (mkContext resources locale pfx), tr ++ entering w rank job) := by
  simp [prepare, andThen, print_eq, getEnv, emit, ret, hres, hloc, entering]

/-- The job body when every stage succeeds. -/
theorem jobBody_ok {w : World} {rank : Int} {pfx resources locale : String} {job : JobEntry}
    {rest : List JobEntry} {tr : List Event}
    (hres : w.getMandatoryEnvVar "DYNAWO_RESOURCES_DIR" = Except.ok resources)
    (hloc : w.getMandatoryEnvVar "DYNAWO_LOCALE" = Except.ok locale)
    (hok : StagesSucceed w rank pfx resources locale (job :: rest) tr) :
    jobBody w rank pfx job tr =
      (Except.ok (), tr ++ jobTrace w rank pfx resources locale job) := by
  obtain ⟨h1, h2, h3, h4, h5, _⟩ := hok
  have hinit : initBody w (rewritten job rank) (mkContext resources locale pfx)
      (tr ++ entering w rank job) = (Except.ok (), tr ++ entering w rank job ++
        [Event.newSimulation (rewritten job rank) (mkContext resources locale pfx),
         Event.init (rewritten job rank)]) := by
    simp only [initBody, andThen, call_ok h1, call_ok h2]
    simp
  have hrun := runBody_ok h3 (by simpa using h4)
  have hclean := call_ok h5
  simp only [List.append_assoc, List.cons_append, List.nil_append] at hinit hrun hclean
  simp only [jobBody, andThen, prepare_ok tr hres hloc, initStage, tryCatch, hinit, runStage,
    hrun, endOfJob, hclean, print_eq]
  simp [jobTrace, rewritten, mkContext]

theorem forJobs_ok {w : World} {rank : Int} {pfx resources locale : String}
    (hres : w.getMandatoryEnvVar "DYNAWO_RESOURCES_DIR" = Except.ok resources)
    (hloc : w.getMandatoryEnvVar "DYNAWO_LOCALE" = Except.ok locale) :
    ∀ (jobs : List JobEntry) (tr : List Event),
      StagesSucceed w rank pfx resources locale jobs tr →
      forJobs w rank pfx jobs tr =
        (Except.ok (), tr ++ jobs.flatMap (jobTrace w rank pfx resources locale)) := by
  intro jobs
  induction jobs with
  | nil => intro tr _; simp [forJobs, ret]
  | cons job rest ih =>
    intro tr hok
    rw [forJobs_cons]
    simp only [andThen, jobBody_ok hres hloc hok, ih _ hok.2.2.2.2.2, List.flatMap_cons,
      List.append_assoc]

theorem stages_of_jobTrace (w : World) (rank : Int) (pfx resources locale : String)
    (jobs : List JobEntry) :
    (jobs.flatMap (jobTrace w rank pfx resources locale)).filter Event.isStage =
      jobs.flatMap (lifecycle rank) := by
  induction jobs with
  | nil => rfl
  | cons job rest ih =>
    rw [List.flatMap_cons, List.flatMap_cons, List.filter_append, ih]
    congr 1
    cases h : w.isLoggingEnabled <;>
      simp [jobTrace, entering, printed, h, List.filter, Event.isStage, lifecycle]

/-! ## The directories a pass sets -/

theorem directories_append (a b : List Event) :
    directories (a ++ b) = directories a ++ directories b := by
  induction a with
  | nil => rfl
  | cons ev a ih => cases ev <;> simp [directories, ih]

theorem directories_printed (w : World) (level : SeverityLevel) (output : Output) :
    directories (printed w level output) = [] := by
  cases h : w.isLoggingEnabled <;> simp [printed, h, directories]

theorem quiet_ret {α : Type} (x : α) : Quiet (ret x : Block α) := fun _ => rfl

theorem quiet_raise {α : Type} (e : Exn) : Quiet (raise e : Block α) := fun _ => rfl

theorem quiet_print (w : World) (output : Output) (level : SeverityLevel) :
    Quiet (print w output level) := by
  intro tr
  rw [print_eq, directories_append, directories_printed, List.append_nil]

theorem quiet_call (w : World) (ev : Event) (h : directories [ev] = []) : Quiet (call w ev) := by
  intro tr
  rw [call_trace, directories_append, h, List.append_nil]

theorem quiet_andThen {α β : Type} {a : Block α} {f : α → Block β} (ha : Quiet a)
    (hf : ∀ x, Quiet (f x)) : Quiet (andThen a f) := by
  intro tr
  have h1 := ha tr
  unfold andThen
  cases hr : a tr with
  | mk r t =>
    rw [hr] at h1
    cases r with
    | error e => exact h1
    | ok x => exact (hf x t).trans h1

theorem quiet_tryCatch {α : Type} {body : Block α} {handler : Exn → Option (Block α)}
    (hb : Quiet body) (hh : ∀ e h, handler e = some h → Quiet h) :
    Quiet (tryCatch body handler) := by
  intro tr
  have h1 := hb tr
  unfold tryCatch
  cases hr : body tr with
  | mk r t =>
    rw [hr] at h1
    cases r with
    | ok x => exact h1
    | error e =>
      cases hc : handler e with
      | none => simpa only [hc] using h1
      | some h => simpa only [hc] using (hh e h hc t).trans h1

theorem quiet_logAndRethrow (w : World) (e : Exn) : Quiet (logAndRethrow w e) :=
  quiet_andThen (quiet_print w _ _) fun _ => quiet_raise e

theorem quiet_initStage (w : World) (sim : JobEntry) (ctx : SimulationContext) :
    Quiet (initStage w sim ctx) := by
  refine quiet_tryCatch (quiet_andThen (quiet_call w _ rfl) fun _ => quiet_call w _ rfl) ?_
  intro e h he
  cases e <;> simp only [initHandlers] at he
  case Terminate =>
    split at he
    · cases he; exact quiet_logAndRethrow w _
    · cases he
  case unlisted => cases he
  all_goals cases he; exact quiet_logAndRethrow w _

theorem quiet_corrective (w : World) (sim : JobEntry) (e : Exn) : Quiet (corrective w sim e) := by
  unfold corrective
  split
  · split
    · exact quiet_andThen (quiet_call w _ rfl) fun _ => quiet_call w _ rfl
    · exact quiet_ret ()
  · exact quiet_ret ()

theorem quiet_logTerminateRethrow (w : World) (sim : JobEntry) (e : Exn) :
    Quiet (logTerminateRethrow w sim e) :=
  quiet_andThen (quiet_print w _ _) fun _ =>
    quiet_andThen (quiet_call w _ rfl) fun _ => quiet_raise e

theorem quiet_runStage (w : World) (sim : JobEntry) : Quiet (runStage w sim) := by
  refine quiet_tryCatch (quiet_andThen (quiet_call w _ rfl) fun _ => quiet_call w _ rfl) ?_
  intro e h he
  have hsome : (runHandlers w sim e).isSome := by rw [he]; rfl
  rw [runHandlers_of_isSome hsome] at he
  cases he
  exact quiet_andThen (quiet_corrective w sim e) fun _ => quiet_logTerminateRethrow w sim e

theorem quiet_endOfJob (w : World) (sim : JobEntry) (ctx : SimulationContext) :
    Quiet (endOfJob w sim ctx) :=
  quiet_andThen (quiet_call w _ rfl) fun _ =>
    quiet_andThen (quiet_print w _ _) fun _ =>
      quiet_andThen (quiet_print w _ _) fun _ => quiet_print w _ _

/-- A job sets its two directories, suffixed with the rank, or throws before it sets any. -/
theorem directories_jobBody (w : World) (rank : Int) (pfx : String) (job : JobEntry)
    (tr : List Event) :
    directories (jobBody w rank pfx job tr).2 =
        directories tr ++ (importedDirectories job).map (fun d => suffixed d rank) ∨
    (directories (jobBody w rank pfx job tr).2 = directories tr ∧
      ∃ e, (jobBody w rank pfx job tr).1 = Except.error e) := by
  cases hres : w.getMandatoryEnvVar "DYNAWO_RESOURCES_DIR" with
  | error e =>
    right
    have : jobBody w rank pfx job tr = (Except.error e, tr ++
        printed w SeverityLevel.INFO (Output.log LogKey.LaunchingJob job.name)) := by
      simp [jobBody, andThen, prepare, print_eq, getEnv, hres]
    rw [this]
    exact ⟨by simp [directories_append, directories_printed], e, rfl⟩
  | ok resources =>
    cases hloc : w.getMandatoryEnvVar "DYNAWO_LOCALE" with
    | error e =>
      right
      have : jobBody w rank pfx job tr = (Except.error e, tr ++
          printed w SeverityLevel.INFO (Output.log LogKey.LaunchingJob job.name)) := by
        simp [jobBody, andThen, prepare, print_eq, getEnv, hres, hloc]
      rw [this]
      exact ⟨by simp [directories_append, directories_printed], e, rfl⟩
    | ok locale =>
      left
      have hq : Quiet (andThen (initStage w (rewritten job rank)
          (mkContext resources locale pfx)) fun _ =>
          andThen (runStage w (rewritten job rank)) fun _ =>
          endOfJob w (rewritten job rank) (mkContext resources locale pfx)) :=
        quiet_andThen (quiet_initStage w _ _) fun _ =>
          quiet_andThen (quiet_runStage w _) fun _ => quiet_endOfJob w _ _
      have hj : jobBody w rank pfx job tr =
          (andThen (initStage w (rewritten job rank) (mkContext resources locale pfx)) fun _ =>
            andThen (runStage w (rewritten job rank)) fun _ =>
            endOfJob w (rewritten job rank) (mkContext resources locale pfx))
            (tr ++ entering w rank job) := by
        simp only [jobBody, andThen, prepare_ok tr hres hloc]
      rw [hj, hq, directories_append]
      unfold entering
      rw [directories_append, directories_printed]
      rfl

theorem directories_forJobs (w : World) (rank : Int) (pfx : String) :
    ∀ (jobs : List JobEntry) (tr : List Event), ∃ n,
      directories (forJobs w rank pfx jobs tr).2 = directories tr ++
        ((jobs.flatMap importedDirectories).take n).map (fun d => suffixed d rank) := by
  intro jobs
  induction jobs with
  | nil => intro tr; exact ⟨0, by simp [forJobs, ret]⟩
  | cons job rest ih =>
    intro tr
    rw [forJobs_cons]
    unfold andThen
    rcases directories_jobBody w rank pfx job tr with h | ⟨h, e, he⟩
    · cases hr : jobBody w rank pfx job tr with
      | mk r t =>
        rw [hr] at h
        cases r with
        | error e =>
          exact ⟨2, by simpa [importedDirectories] using h⟩
        | ok x =>
          obtain ⟨n, hn⟩ := ih t
          refine ⟨n + 2, ?_⟩
          simp only [hn]
          simp only at h
          rw [h]
          simp [importedDirectories]
    · cases hr : jobBody w rank pfx job tr with
      | mk r t =>
        rw [hr] at h he
        cases r with
        | error e1 => exact ⟨0, by simpa using h⟩
        | ok x => simp at he

theorem directories_forJobs_ok (w : World) (rank : Int) (pfx : String) :
    ∀ (jobs : List JobEntry) (tr : List Event),
      (forJobs w rank pfx jobs tr).1 = Except.ok () →
      directories (forJobs w rank pfx jobs tr).2 = directories tr ++
        (jobs.flatMap importedDirectories).map (fun d => suffixed d rank) := by
  intro jobs
  induction jobs with
  | nil => intro tr _; simp [forJobs, ret]
  | cons job rest ih =>
    intro tr hok
    rw [forJobs_cons] at hok ⊢
    unfold andThen at hok ⊢
    rcases directories_jobBody w rank pfx job tr with h | ⟨_, e, he⟩
    · cases hr : jobBody w rank pfx job tr with
      | mk r t =>
        rw [hr] at h hok
        cases r with
        | error e => simp at hok
        | ok x =>
          simp only at h hok ⊢
          rw [ih t hok, h]
          simp [importedDirectories]
    · cases hr : jobBody w rank pfx job tr with
      | mk r t =>
        rw [hr] at he hok
        cases r with
        | error e1 => simp at hok
        | ok x => simp at he

/-- A pass that returns has set every directory of the imported collection, each followed
by the rank of the pass. -/
theorem directories_pass_ok (w : World) (rank : Int) (file : String)
    (hok : (pass w rank file).1 = Except.ok ()) :
    directories (pass w rank file).2 =
      (originalDirectories w file).map (fun d => suffixed d rank) := by
  unfold pass launchSimuLocale andThen originalDirectories at *
  cases himp : w.importFromFile file with
  | error e => rw [himp] at hok; simp at hok
  | ok jobs =>
    rw [himp] at hok
    simp only at hok ⊢
    split at hok
    · simp [raise] at hok
    · rename_i hne
      simp only [hne]
      simpa [directories] using
        directories_forJobs_ok w rank (prefixJobFile w file) jobs [] hok

/-- The directories a pass sets are the directories of the imported collection, in their
order and up to the point the pass reached, each followed by the rank of the pass. -/
theorem directories_pass (w : World) (rank : Int) (file : String) : ∃ n,
    directories (pass w rank file).2 =
      ((originalDirectories w file).take n).map (fun d => suffixed d rank) := by
  unfold pass launchSimuLocale andThen originalDirectories
  cases himp : w.importFromFile file with
  | error e => exact ⟨0, rfl⟩
  | ok jobs =>
    simp only
    split
    · exact ⟨0, rfl⟩
    · obtain ⟨n, hn⟩ := directories_forJobs w rank (prefixJobFile w file) jobs []
      exact ⟨n, by simpa [directories] using hn⟩

/-! ## The claims -/

/-- C5: when the import returns an empty collection, `launchSimuLocale` throws the
`DYN::Error` of type `SIMULATION` and key `NoJobDefined` and leaves the trace as it found it:
no lifecycle operation is invoked, no directory is rewritten, and the result is not a
success. -/
theorem empty_collection_rejected (w : World) (rank : Int) (file : String) (tr : List Event)
    (h : w.importFromFile file = Except.ok []) :
    launchSimuLocale w rank file tr =
      (Except.error (Exn.Error TypeError_t.SIMULATION KeyError_t.NoJobDefined
        (w.dico KeyError_t.NoJobDefined)), tr) ∧
    (launchSimuLocale w rank file tr).1 ≠ Except.ok () := by
  have h0 : launchSimuLocale w rank file tr = (Except.error (noJobDefined w), tr) := by
    simp [launchSimuLocale, andThen, h, raise]
  refine ⟨h0, ?_⟩
  rw [h0]
  simp

/-- C6: the rewrite of lines 227 and 228 maps a directory and a rank to the directory
followed by the decimal string of the rank (a string that reads back as the rank in base
ten), and for two distinct ranks that are not negative the rewritten outputs directories of
a job differ, and so do its rewritten compile directories. -/
theorem rewrite_separates_ranks (job : JobEntry) (R1 R2 : Int) (h1 : 0 ≤ R1) (h2 : 0 ≤ R2)
    (hne : R1 ≠ R2) :
    (rewritten job R1).outputsDirectory = job.outputsDirectory ++ lexical_cast R1 ∧
    (rewritten job R1).compileDir = job.compileDir ++ lexical_cast R1 ∧
    decimalValue (lexical_cast R1).data = R1.toNat ∧
    (rewritten job R1).outputsDirectory ≠ (rewritten job R2).outputsDirectory ∧
    (rewritten job R1).compileDir ≠ (rewritten job R2).compileDir :=
  ⟨rfl, rfl, decimalValue_lexical_cast R1 h1, suffixed_ne _ R1 R2 h1 h2 hne,
    suffixed_ne _ R1 R2 h1 h2 hne⟩

/-- C1: when the pass reaches a job, the job is prepared, and the construction of the
simulation or its `init` throws an object `e` of any kind, then the pass ends by throwing
`e`; its trace ends with the throwing call, followed by the error message when a handler
caught `e`; and from the start of the job on the trace holds no `terminate` and no
`clean`. -/
theorem init_failure_skips_terminate_and_clean (w : World) (rank : Int) (file : String)
    (before after : List JobEntry) (job : JobEntry) (tr tr0 tr1 : List Event)
    (ctx : SimulationContext) (e : Exn)
    (hreach : Reaches w rank file before job after tr)
    (hprep : prepare w rank (prefixJobFile w file) job tr = (Except.ok ctx, tr0))
    (hinit : initBody w (rewritten job rank) ctx tr0 = (Except.error e, tr1)) :
    (pass w rank file).1 = Except.error e ∧
    (pass w rank file).2 = tr1 ++ (if (initHandlers w e).isSome then
      printed w SeverityLevel.ERROR (Output.text e.what) else []) ∧
    ∃ seg, (pass w rank file).2 = tr ++ seg ∧
      ∀ sim, Event.terminate sim ∉ seg ∧ Event.clean sim ∉ seg := by
  have htr0 := prepare_ok_inv hprep
  rw [pass_of_job_error hreach (jobBody_of_init_error hprep hinit)]
  refine ⟨rfl, rfl, ?_⟩
  rcases initBody_error_inv hinit with h1 | h1
  · refine ⟨_, by rw [h1, htr0, List.append_assoc, List.append_assoc], ?_⟩
    intro sim
    cases w.isLoggingEnabled <;> cases (initHandlers w e).isSome <;> simp [printed, entering]
  · refine ⟨_, by rw [h1, htr0, List.append_assoc, List.append_assoc], ?_⟩
    intro sim
    cases w.isLoggingEnabled <;> cases (initHandlers w e).isSome <;> simp [printed, entering]

/-- C7: when `simulate` throws `e`, a handler catches it, its corrective adjustment (if it
has one) returns, and the best-effort `terminate` of the handler throws `e2`, then the pass
ends by throwing `e2`, not `e`, and from the start of the job on the trace holds no
`clean`. -/
theorem second_failure_supersedes (w : World) (rank : Int) (file : String)
    (before after : List JobEntry) (job : JobEntry) (tr tr0 tr1 tr3 : List Event)
    (ctx : SimulationContext) (e e2 : Exn)
    (hreach : Reaches w rank file before job after tr)
    (hprep : prepare w rank (prefixJobFile w file) job tr = (Except.ok ctx, tr0))
    (hinit : initBody w (rewritten job rank) ctx tr0 = (Except.ok (), tr1))
    (hrun : w.throws tr1 (Event.simulate (rewritten job rank)) = some e)
    (hcaught : (runHandlers w (rewritten job rank) e).isSome)
    (hhooks : corrective w (rewritten job rank) e
      (tr1 ++ [Event.simulate (rewritten job rank)]) = (Except.ok (), tr3))
    (hterm : w.throws (tr3 ++ printed w SeverityLevel.ERROR (Output.text e.what))
      (Event.terminate (rewritten job rank)) = some e2) :
    (pass w rank file).1 = Except.error e2 ∧
    (pass w rank file).2 = tr3 ++ printed w SeverityLevel.ERROR (Output.text e.what) ++
      [Event.terminate (rewritten job rank)] ∧
    ∃ seg, (pass w rank file).2 = tr ++ seg ∧ ∀ sim, Event.clean sim ∉ seg := by
  have hbody := runBody_of_simulate_error hrun
  have hstage := runStage_handled hbody hcaught hhooks
  rw [hterm] at hstage
  rw [pass_of_job_error hreach (jobBody_of_run_error hprep hinit hstage)]
  refine ⟨rfl, rfl, ?_⟩
  obtain ⟨s0, hs0, hn0⟩ := initialised_trace hprep hinit
  obtain ⟨l, hl, hnl⟩ := corrective_trace w (rewritten job rank) e
    (tr1 ++ [Event.simulate (rewritten job rank)])
  rw [hhooks] at hl
  simp only at hl
  refine ⟨_, by rw [hl, hs0]; simp only [List.append_assoc]; rfl, ?_⟩
  intro sim
  have h1 := (hn0 sim).2
  have h2 := (hnl sim).2
  cases w.isLoggingEnabled <;> simp [printed, h1, h2]

/-- C2: when `simulate` throws a `DYN::Error` of key `StateVariableNoReference`, the trace of
the pass continues, once both hooks have returned, with `simulate`,
`activateExportIIDM(false)`, `setLostEquipmentsExportMode(EXPORT_LOSTEQUIPMENTS_NONE)`, the
error message and `terminate`, in this order.  Whatever the hooks do, a `terminate` occurs
after the throw only behind both hooks and the message; nothing follows it; and when it
returns, the pass ends by throwing the error of `simulate`. -/
theorem hooks_precede_terminate (w : World) (rank : Int) (file : String)
    (before after : List JobEntry) (job : JobEntry) (tr tr0 tr1 : List Event)
    (ctx : SimulationContext) (ty : TypeError_t) (s : String)
    (hreach : Reaches w rank file before job after tr)
    (hprep : prepare w rank (prefixJobFile w file) job tr = (Except.ok ctx, tr0))
    (hinit : initBody w (rewritten job rank) ctx tr0 = (Except.ok (), tr1))
    (hrun : w.throws tr1 (Event.simulate (rewritten job rank)) =
      some (Exn.Error ty KeyError_t.StateVariableNoReference s)) :
    ∃ seg, (pass w rank file).2 = tr1 ++ seg ∧
      (w.throws (tr1 ++ [Event.simulate (rewritten job rank)])
          (Event.activateExportIIDM (rewritten job rank) false) = none →
        w.throws (tr1 ++ [Event.simulate (rewritten job rank),
            Event.activateExportIIDM (rewritten job rank) false])
          (Event.setLostEquipmentsExportMode (rewritten job rank)
            ExportLostEquipmentsMode.EXPORT_LOSTEQUIPMENTS_NONE) = none →
        seg = [Event.simulate (rewritten job rank),
            Event.activateExportIIDM (rewritten job rank) false,
            Event.setLostEquipmentsExportMode (rewritten job rank)
              ExportLostEquipmentsMode.EXPORT_LOSTEQUIPMENTS_NONE] ++
          printed w SeverityLevel.ERROR (Output.text s) ++
          [Event.terminate (rewritten job rank)]) ∧
      ∀ pre post, seg = pre ++ Event.terminate (rewritten job rank) :: post →
        pre = [Event.simulate (rewritten job rank),
            Event.activateExportIIDM (rewritten job rank) false,
            Event.setLostEquipmentsExportMode (rewritten job rank)
              ExportLostEquipmentsMode.EXPORT_LOSTEQUIPMENTS_NONE] ++
          printed w SeverityLevel.ERROR (Output.text s) ∧
        post = [] ∧
        (w.throws (tr1 ++ pre) (Event.terminate (rewritten job rank)) = none →
          (pass w rank file).1 =
            Except.error (Exn.Error ty KeyError_t.StateVariableNoReference s)) := by
  have hbody := runBody_of_simulate_error hrun
  have hsome : (runHandlers w (rewritten job rank)
      (Exn.Error ty KeyError_t.StateVariableNoReference s)).isSome := rfl
  cases h1 : w.throws (tr1 ++ [Event.simulate (rewritten job rank)])
      (Event.activateExportIIDM (rewritten job rank) false) with
  | some e1 =>
    have hc : corrective w (rewritten job rank)
        (Exn.Error ty KeyError_t.StateVariableNoReference s)
        (tr1 ++ [Event.simulate (rewritten job rank)]) = (Except.error e1,
          tr1 ++ [Event.simulate (rewritten job rank)] ++
            [Event.activateExportIIDM (rewritten job rank) false]) := by
      simp only [corrective, if_true, andThen, call_error h1]
    rw [pass_of_job_error hreach (jobBody_of_run_error hprep hinit
      (runStage_hook_error hbody hsome hc))]
    refine ⟨_, by simp only [List.append_assoc]; rfl, ?_, ?_⟩
    · intro hact
      exact absurd hact (by simp)
    · intro pre post hsplit
      have hmem : Event.terminate (rewritten job rank) ∈
          pre ++ Event.terminate (rewritten job rank) :: post := by simp
      rw [← hsplit] at hmem
      simp at hmem
  | none =>
    cases h2 : w.throws (tr1 ++ [Event.simulate (rewritten job rank)] ++
        [Event.activateExportIIDM (rewritten job rank) false])
        (Event.setLostEquipmentsExportMode (rewritten job rank)
          ExportLostEquipmentsMode.EXPORT_LOSTEQUIPMENTS_NONE) with
    | some e2 =>
      have hc : corrective w (rewritten job rank)
          (Exn.Error ty KeyError_t.StateVariableNoReference s)
          (tr1 ++ [Event.simulate (rewritten job rank)]) = (Except.error e2,
            tr1 ++ [Event.simulate (rewritten job rank)] ++
              [Event.activateExportIIDM (rewritten job rank) false] ++
              [Event.setLostEquipmentsExportMode (rewritten job rank)
                ExportLostEquipmentsMode.EXPORT_LOSTEQUIPMENTS_NONE]) := by
        simp only [corrective, if_true, andThen, call_ok h1, call_error h2]
      rw [pass_of_job_error hreach (jobBody_of_run_error hprep hinit
        (runStage_hook_error hbody hsome hc))]
      refine ⟨_, by simp only [List.append_assoc]; rfl, ?_, ?_⟩
      · intro _ hset
        simp only [List.append_assoc, List.singleton_append] at h2
        rw [h2] at hset
        exact absurd hset (by simp)
      · intro pre post hsplit
        have hmem : Event.terminate (rewritten job rank) ∈
            pre ++ Event.terminate (rewritten job rank) :: post := by simp
        rw [← hsplit] at hmem
        simp at hmem
    | none =>
      have hc : corrective w (rewritten job rank)
          (Exn.Error ty KeyError_t.StateVariableNoReference s)
          (tr1 ++ [Event.simulate (rewritten job rank)]) = (Except.ok (),
            tr1 ++ [Event.simulate (rewritten job rank)] ++
              [Event.activateExportIIDM (rewritten job rank) false] ++
              [Event.setLostEquipmentsExportMode (rewritten job rank)
                ExportLostEquipmentsMode.EXPORT_LOSTEQUIPMENTS_NONE]) := by
        simp only [corrective, if_true, andThen, call_ok h1, call_ok h2]
      have hstage := runStage_handled hbody hsome hc
      rw [pass_of_job_error hreach (jobBody_of_run_error hprep hinit hstage)]
      refine ⟨([Event.simulate (rewritten job rank),
            Event.activateExportIIDM (rewritten job rank) false,
            Event.setLostEquipmentsExportMode (rewritten job rank)
              ExportLostEquipmentsMode.EXPORT_LOSTEQUIPMENTS_NONE] ++
          printed w SeverityLevel.ERROR (Output.text s)) ++
          [Event.terminate (rewritten job rank)], by simp [Exn.what], fun _ _ => rfl, ?_⟩
      intro pre post hsplit
      have hnot : Event.terminate (rewritten job rank) ∉
          [Event.simulate (rewritten job rank),
            Event.activateExportIIDM (rewritten job rank) false,
            Event.setLostEquipmentsExportMode (rewritten job rank)
              ExportLostEquipmentsMode.EXPORT_LOSTEQUIPMENTS_NONE] ++
          printed w SeverityLevel.ERROR (Output.text s) := by
        cases w.isLoggingEnabled <;> simp [printed]
      obtain ⟨hpre, hpost⟩ := split_at_last hnot hsplit
      refine ⟨hpre, hpost, ?_⟩
      intro hret
      rw [hpre] at hret
      simp only [Exn.what, List.append_assoc, List.singleton_append, List.cons_append,
        List.nil_append] at hret ⊢
      rw [hret]
      rfl


/-- C3 (amended): when `simulate` throws `e`, the pass ends by throwing and no `clean` is
invoked for the job.  When the second `try` block has a handler for `e` and the corrective
adjustment of that handler (if it has one) returns, the handler prints the message and
attempts `terminate`, and when `terminate` returns the pass throws `e`.  When the block has
no handler for `e`, the object propagates with no `terminate` attempted. -/
theorem run_failure_recovery (w : World) (rank : Int) (file : String)
    (before after : List JobEntry) (job : JobEntry) (tr tr0 tr1 tr3 : List Event)
    (ctx : SimulationContext) (e : Exn)
    (hreach : Reaches w rank file before job after tr)
    (hprep : prepare w rank (prefixJobFile w file) job tr = (Except.ok ctx, tr0))
    (hinit : initBody w (rewritten job rank) ctx tr0 = (Except.ok (), tr1))
    (hrun : w.throws tr1 (Event.simulate (rewritten job rank)) = some e) :
    (∃ e1, (pass w rank file).1 = Except.error e1) ∧
    (∃ seg, (pass w rank file).2 = tr ++ seg ∧ ∀ sim, Event.clean sim ∉ seg) ∧
    (runHandlers w (rewritten job rank) e = none →
      pass w rank file = (Except.error e, tr1 ++ [Event.simulate (rewritten job rank)])) ∧
    ((runHandlers w (rewritten job rank) e).isSome →
      corrective w (rewritten job rank) e (tr1 ++ [Event.simulate (rewritten job rank)]) =
        (Except.ok (), tr3) →
      (pass w rank file).2 = tr3 ++ printed w SeverityLevel.ERROR (Output.text e.what) ++
        [Event.terminate (rewritten job rank)] ∧
      (w.throws (tr3 ++ printed w SeverityLevel.ERROR (Output.text e.what))
          (Event.terminate (rewritten job rank)) = none →
        (pass w rank file).1 = Except.error e)) :=
  recovery_after_body_error tr3 hreach hprep hinit (runBody_of_simulate_error hrun)
    ⟨_, rfl, by simp⟩

/-- C8 (amended): when `simulate` returns and the `terminate` that follows it throws `e`,
the pass ends by throwing and no `clean` is invoked for the job.  When the second `try`
block has no handler for `e`, the object propagates as it is: no hook, no second
`terminate`.  When it has one, the handler runs as it does for a failure of `simulate`:
its corrective adjustment if it has one, then the message, then a second `terminate`, and
when that one returns the pass throws `e`. -/
theorem terminate_failure_after_run (w : World) (rank : Int) (file : String)
    (before after : List JobEntry) (job : JobEntry) (tr tr0 tr1 tr3 : List Event)
    (ctx : SimulationContext) (e : Exn)
    (hreach : Reaches w rank file before job after tr)
    (hprep : prepare w rank (prefixJobFile w file) job tr = (Except.ok ctx, tr0))
    (hinit : initBody w (rewritten job rank) ctx tr0 = (Except.ok (), tr1))
    (hrun : w.throws tr1 (Event.simulate (rewritten job rank)) = none)
    (hterm : w.throws (tr1 ++ [Event.simulate (rewritten job rank)])
      (Event.terminate (rewritten job rank)) = some e) :
    (∃ e1, (pass w rank file).1 = Except.error e1) ∧
    (∃ seg, (pass w rank file).2 = tr ++ seg ∧ ∀ sim, Event.clean sim ∉ seg) ∧
    (runHandlers w (rewritten job rank) e = none →
      pass w rank file = (Except.error e,
        tr1 ++ [Event.simulate (rewritten job rank), Event.terminate (rewritten job rank)])) ∧
    ((runHandlers w (rewritten job rank) e).isSome →
      corrective w (rewritten job rank) e
        (tr1 ++ [Event.simulate (rewritten job rank), Event.terminate (rewritten job rank)]) =
        (Except.ok (), tr3) →
      (pass w rank file).2 = tr3 ++ printed w SeverityLevel.ERROR (Output.text e.what) ++
        [Event.terminate (rewritten job rank)] ∧
      (w.throws (tr3 ++ printed w SeverityLevel.ERROR (Output.text e.what))
          (Event.terminate (rewritten job rank)) = none →
        (pass w rank file).1 = Except.error e)) :=
  recovery_after_body_error tr3 hreach hprep hinit (runBody_of_terminate_error hrun hterm)
    ⟨_, rfl, by simp⟩

/-- C9 (amended): when the body of the first `try` block (construction and `init`) throws
an object `e` the block has a handler for, a message with the text of `e` is printed at
`ERROR` level and the pass then ends by throwing `e`.  When the body of the second
(`simulate`, then `terminate`) throws an object `e` the block has a handler for and the
corrective adjustment of that handler (if it has one) returns, the message is printed at
`ERROR` level, `terminate` is attempted, and the pass then ends by throwing: the object
`terminate` threw if it threw, `e` otherwise. -/
theorem handled_failure_is_logged (w : World) (rank : Int) (file : String)
    (before after : List JobEntry) (job : JobEntry) (tr tr0 tr1 h0 h : List Event)
    (ctx : SimulationContext) (e : Exn)
    (hreach : Reaches w rank file before job after tr)
    (hprep : prepare w rank (prefixJobFile w file) job tr = (Except.ok ctx, tr0)) :
    (initBody w (rewritten job rank) ctx tr0 = (Except.error e, h) →
      (initHandlers w e).isSome →
      pass w rank file =
        (Except.error e, h ++ printed w SeverityLevel.ERROR (Output.text e.what))) ∧
    (initBody w (rewritten job rank) ctx tr0 = (Except.ok (), tr1) →
      runBody w (rewritten job rank) tr1 = (Except.error e, h0) →
      (runHandlers w (rewritten job rank) e).isSome →
      corrective w (rewritten job rank) e h0 = (Except.ok (), h) →
      pass w rank file =
        (Except.error ((w.throws (h ++ printed w SeverityLevel.ERROR (Output.text e.what))
          (Event.terminate (rewritten job rank))).getD e),
        h ++ printed w SeverityLevel.ERROR (Output.text e.what) ++
          [Event.terminate (rewritten job rank)])) := by
  refine ⟨?_, ?_⟩
  · intro hinit hsome
    rw [pass_of_job_error hreach (jobBody_of_init_error hprep hinit), if_pos hsome]
  · intro hinit hbody hsome hhooks
    rw [pass_of_job_error hreach (jobBody_of_run_error hprep hinit
      (runStage_handled hbody hsome hhooks))]

/-- C4: for a collection that is not empty and all of whose stages succeed when they are
invoked, the pass returns, its trace is the traces of the jobs one after the other in the
order of the collection, and the lifecycle operations in it are, job after job, `init`,
`simulate`, `terminate`, `clean`, each once. -/
theorem all_stages_succeed_pass (w : World) (rank : Int) (file : String)
    (jobs : List JobEntry) (resources locale : String)
    (himp : w.importFromFile file = Except.ok jobs) (hne : jobs ≠ [])
    (hres : w.getMandatoryEnvVar "DYNAWO_RESOURCES_DIR" = Except.ok resources)
    (hloc : w.getMandatoryEnvVar "DYNAWO_LOCALE" = Except.ok locale)
    (hok : StagesSucceed w rank (prefixJobFile w file) resources locale jobs []) :
    pass w rank file = (Except.ok (),
      jobs.flatMap (jobTrace w rank (prefixJobFile w file) resources locale)) ∧
    (pass w rank file).2.filter Event.isStage = jobs.flatMap (lifecycle rank) := by
  have hemp : jobs.isEmpty = false := by
    cases jobs with
    | nil => exact absurd rfl hne
    | cons j l => rfl
  have hpass : pass w rank file = (Except.ok (),
      jobs.flatMap (jobTrace w rank (prefixJobFile w file) resources locale)) := by
    simp only [pass, launchSimuLocale, andThen, himp, hemp]
    simpa using forJobs_ok hres hloc jobs [] hok
  refine ⟨hpass, ?_⟩
  rw [hpass]
  exact stages_of_jobTrace w rank _ resources locale jobs

/-- C10 (amended): the dispatcher runs `nbThreads` passes, and the pass of iteration `i`
uses as rank the number of the thread that executes the iteration: when the pass returns,
the directories it has set are those of the imported collection, each followed by that
thread number.  For two iterations executed by threads of different numbers, the
directories the two passes set at the same position are the same directory of the imported
collection followed by the two thread numbers, and they differ. -/
theorem passes_use_thread_numbers (w : World) (nbThreads : Nat) (thread : Nat → Nat)
    (file : String) (i j : Nat) (hi : i < nbThreads) (hj : j < nbThreads)
    (hne : thread i ≠ thread j) :
    (dispatch w nbThreads thread file).length = nbThreads ∧
    (dispatch w nbThreads thread file)[i]? = some (pass w (Int.ofNat (thread i)) file) ∧
    (dispatch w nbThreads thread file)[j]? = some (pass w (Int.ofNat (thread j)) file) ∧
    ((pass w (Int.ofNat (thread i)) file).1 = Except.ok () →
      directories (pass w (Int.ofNat (thread i)) file).2 =
        (originalDirectories w file).map (fun d => suffixed d (Int.ofNat (thread i)))) ∧
    ∀ (k : Nat) (di dj : String),
      (directories (pass w (Int.ofNat (thread i)) file).2)[k]? = some di →
      (directories (pass w (Int.ofNat (thread j)) file).2)[k]? = some dj →
      ∃ d, (originalDirectories w file)[k]? = some d ∧
        di = suffixed d (Int.ofNat (thread i)) ∧ dj = suffixed d (Int.ofNat (thread j)) ∧
        di ≠ dj := by
  have hcast : Int.ofNat (thread i) ≠ Int.ofNat (thread j) := by
    intro h; exact hne (Int.ofNat.inj h)
  refine ⟨by simp [dispatch], ?_, ?_, directories_pass_ok w _ file, ?_⟩
  · simp [dispatch, List.getElem?_range hi]
  · simp [dispatch, List.getElem?_range hj]
  · intro k di dj hdi hdj
    obtain ⟨ni, hni⟩ := directories_pass w (Int.ofNat (thread i)) file
    obtain ⟨nj, hnj⟩ := directories_pass w (Int.ofNat (thread j)) file
    rw [hni, List.getElem?_map, List.getElem?_take] at hdi
    rw [hnj, List.getElem?_map, List.getElem?_take] at hdj
    split at hdi
    · split at hdj
      · cases ho : (originalDirectories w file)[k]? with
        | none => rw [ho] at hdi; simp at hdi
        | some d =>
          rw [ho] at hdi hdj
          simp only [Option.map_some', Option.some.injEq] at hdi hdj
          refine ⟨d, rfl, hdi.symm, hdj.symm, ?_⟩
          rw [← hdi, ← hdj]
          exact suffixed_ne d _ _ (Int.ofNat_nonneg _) (Int.ofNat_nonneg _) hcast
      · simp at hdj
    · simp at hdi

/-! ## The claims at sample worlds -/

/-- C5 at a sample world: its empty collection is rejected. -/
theorem empty_collection_rejected_witness :
    (sampleWorld [] neverThrows).importFromFile "jobs.xml" = Except.ok [] ∧
    launchSimuLocale (sampleWorld [] neverThrows) 0 "jobs.xml" [] =
      (Except.error (Exn.Error TypeError_t.SIMULATION KeyError_t.NoJobDefined
        "no job defined"), []) :=
  ⟨rfl, (empty_collection_rejected (sampleWorld [] neverThrows) 0 "jobs.xml" [] rfl).1⟩

/-- C6 at the ranks 0 and 1: the sample job gets the directories `outA0` and `outA1`. -/
theorem rewrite_separates_ranks_witness :
    (rewritten jobA 0).outputsDirectory = "outA0" ∧
    (rewritten jobA 1).outputsDirectory = "outA1" ∧
    (rewritten jobA 0).outputsDirectory ≠ (rewritten jobA 1).outputsDirectory ∧
    (rewritten jobA 0).compileDir ≠ (rewritten jobA 1).compileDir :=
  ⟨by decide, by decide,
    (rewrite_separates_ranks jobA 0 1 (by decide) (by decide) (by decide)).2.2.2⟩

/-- C1 at a sample pass whose `init` throws: the pass throws the same object. -/
theorem init_failure_skips_terminate_and_clean_witness :
    Reaches (sampleWorld [jobA] (initThrows (Exn.exception "init failed"))) 0 "jobs.xml"
      [] jobA [] [] ∧
    (pass (sampleWorld [jobA] (initThrows (Exn.exception "init failed"))) 0 "jobs.xml").1 =
      Except.error (Exn.exception "init failed") :=
  ⟨⟨rfl, rfl⟩,
    (init_failure_skips_terminate_and_clean
      (sampleWorld [jobA] (initThrows (Exn.exception "init failed"))) 0 "jobs.xml" [] [] jobA
      [] enteredA initialisedA ctxA (Exn.exception "init failed") ⟨rfl, rfl⟩ rfl rfl).1⟩

/-- C2 at a sample pass whose `simulate` throws the unresolved-reference error and whose
`terminate` returns: the hooks come first and the pass throws the error of `simulate`. -/
theorem hooks_precede_terminate_witness :
    (pass (sampleWorld [jobA] (simulateThrows noReference)) 0 "jobs.xml").2 =
      initialisedA ++ ([Event.simulate simA, Event.activateExportIIDM simA false,
        Event.setLostEquipmentsExportMode simA
          ExportLostEquipmentsMode.EXPORT_LOSTEQUIPMENTS_NONE,
        Event.trace SeverityLevel.ERROR (Output.text "no reference"),
        Event.clog (Output.text "no reference")] ++ Event.terminate simA :: []) ∧
    (pass (sampleWorld [jobA] (simulateThrows noReference)) 0 "jobs.xml").1 =
      Except.error noReference := by
  obtain ⟨seg, hseg, _, hall⟩ := hooks_precede_terminate
    (sampleWorld [jobA] (simulateThrows noReference)) 0 "jobs.xml" [] [] jobA
    [] enteredA initialisedA ctxA TypeError_t.SIMULATION "no reference" ⟨rfl, rfl⟩ rfl rfl rfl
  have h2 : (pass (sampleWorld [jobA] (simulateThrows noReference)) 0 "jobs.xml").2 =
      initialisedA ++ ([Event.simulate simA, Event.activateExportIIDM simA false,
        Event.setLostEquipmentsExportMode simA
          ExportLostEquipmentsMode.EXPORT_LOSTEQUIPMENTS_NONE,
        Event.trace SeverityLevel.ERROR (Output.text "no reference"),
        Event.clog (Output.text "no reference")] ++ Event.terminate simA :: []) := rfl
  refine ⟨h2, ?_⟩
  rw [h2] at hseg
  exact (hall _ _ (List.append_cancel_left hseg).symm).2.2 rfl

/-- C3 as stated fails on a sample pass whose `simulate` throws an object no handler is
written for: no `terminate` is attempted, the lifecycle operations invoked are `init` and
`simulate`.  Nor is `terminate` attempted when `simulate` throws the unresolved-reference
error and the first hook throws. -/
theorem unlisted_run_failure_skips_terminate :
    simulateThrows (Exn.unlisted 0) initialisedA (Event.simulate simA) =
      some (Exn.unlisted 0) ∧
    pass (sampleWorld [jobA] (simulateThrows (Exn.unlisted 0))) 0 "jobs.xml" =
      (Except.error (Exn.unlisted 0), initialisedA ++ [Event.simulate simA]) ∧
    (pass (sampleWorld [jobA] (simulateThrows (Exn.unlisted 0))) 0 "jobs.xml").2.filter
      Event.isStage = [Event.init simA, Event.simulate simA] ∧
    pass (sampleWorld [jobA] (simulateAndHookThrow noReference (Exn.exception "hook"))) 0
      "jobs.xml" = (Except.error (Exn.exception "hook"),
        initialisedA ++ [Event.simulate simA, Event.activateExportIIDM simA false]) :=
  ⟨rfl, rfl, rfl, rfl⟩

/-- C3 (amended) at a sample pass whose `simulate` throws a `std::exception` and whose
`terminate` returns: `terminate` is attempted after the message and the pass throws the
object of `simulate`. -/
theorem run_failure_recovery_witness :
    Reaches (sampleWorld [jobA] (simulateThrows (Exn.exception "diverged"))) 0 "jobs.xml"
      [] jobA [] [] ∧
    (pass (sampleWorld [jobA] (simulateThrows (Exn.exception "diverged"))) 0 "jobs.xml").2 =
      loggedA (initialisedA ++ [Event.simulate simA]) "diverged" ++ [Event.terminate simA] ∧
    (pass (sampleWorld [jobA] (simulateThrows (Exn.exception "diverged"))) 0 "jobs.xml").1 =
      Except.error (Exn.exception "diverged") :=
  ⟨⟨rfl, rfl⟩,
    ((run_failure_recovery (sampleWorld [jobA] (simulateThrows (Exn.exception "diverged"))) 0
      "jobs.xml" [] [] jobA [] enteredA initialisedA (initialisedA ++ [Event.simulate simA])
      ctxA (Exn.exception "diverged") ⟨rfl, rfl⟩ rfl rfl rfl).2.2.2 rfl rfl).1,
    ((run_failure_recovery (sampleWorld [jobA] (simulateThrows (Exn.exception "diverged"))) 0
      "jobs.xml" [] [] jobA [] enteredA initialisedA (initialisedA ++ [Event.simulate simA])
      ctxA (Exn.exception "diverged") ⟨rfl, rfl⟩ rfl rfl rfl).2.2.2 rfl rfl).2 rfl⟩

/-- C7 at a sample pass whose `simulate` and whose best-effort `terminate` both throw: the
pass throws the object of `terminate`. -/
theorem second_failure_supersedes_witness :
    Reaches (sampleWorld [jobA]
      (simulateAndTerminateThrow (Exn.exception "diverged") (Exn.string "cannot terminate")))
      0 "jobs.xml" [] jobA [] [] ∧
    (pass (sampleWorld [jobA]
      (simulateAndTerminateThrow (Exn.exception "diverged") (Exn.string "cannot terminate")))
      0 "jobs.xml").1 = Except.error (Exn.string "cannot terminate") :=
  ⟨⟨rfl, rfl⟩,
    (second_failure_supersedes (sampleWorld [jobA]
      (simulateAndTerminateThrow (Exn.exception "diverged") (Exn.string "cannot terminate")))
      0 "jobs.xml" [] [] jobA [] enteredA initialisedA (initialisedA ++ [Event.simulate simA])
      ctxA (Exn.exception "diverged") (Exn.string "cannot terminate")
      ⟨rfl, rfl⟩ rfl rfl rfl rfl rfl rfl).1⟩

/-- C8 as stated fails on a sample pass whose `simulate` returns and whose first `terminate`
throws the unresolved-reference error: the handler of `DYN::Error` applies both hooks,
prints the message and invokes `terminate` a second time. -/
theorem terminate_failure_enters_recovery :
    firstTerminateThrows noReference (initialisedA ++ [Event.simulate simA])
      (Event.terminate simA) = some noReference ∧
    pass (sampleWorld [jobA] (firstTerminateThrows noReference)) 0 "jobs.xml" =
      (Except.error noReference,
        initialisedA ++ [Event.simulate simA, Event.terminate simA,
          Event.activateExportIIDM simA false,
          Event.setLostEquipmentsExportMode simA
            ExportLostEquipmentsMode.EXPORT_LOSTEQUIPMENTS_NONE,
          Event.trace SeverityLevel.ERROR (Output.text "no reference"),
          Event.clog (Output.text "no reference"),
          Event.terminate simA]) ∧
    ((pass (sampleWorld [jobA] (firstTerminateThrows noReference)) 0 "jobs.xml").2.filter
      Event.isStage).count (Event.terminate simA) = 2 :=
  ⟨rfl, rfl, by decide⟩

/-- C8 (amended) at a sample pass whose first `terminate` throws a `std::exception` and
whose second returns: the pass throws the object of the first. -/
theorem terminate_failure_after_run_witness :
    Reaches (sampleWorld [jobA] (firstTerminateThrows (Exn.exception "stuck"))) 0 "jobs.xml"
      [] jobA [] [] ∧
    (pass (sampleWorld [jobA] (firstTerminateThrows (Exn.exception "stuck"))) 0
      "jobs.xml").2 =
      loggedA (initialisedA ++ [Event.simulate simA, Event.terminate simA]) "stuck" ++
        [Event.terminate simA] ∧
    (pass (sampleWorld [jobA] (firstTerminateThrows (Exn.exception "stuck"))) 0
      "jobs.xml").1 = Except.error (Exn.exception "stuck") :=
  ⟨⟨rfl, rfl⟩,
    ((terminate_failure_after_run (sampleWorld [jobA]
      (firstTerminateThrows (Exn.exception "stuck"))) 0 "jobs.xml" [] [] jobA [] enteredA
      initialisedA (initialisedA ++ [Event.simulate simA, Event.terminate simA]) ctxA
      (Exn.exception "stuck") ⟨rfl, rfl⟩ rfl rfl rfl rfl).2.2.2 rfl rfl).1,
    ((terminate_failure_after_run (sampleWorld [jobA]
      (firstTerminateThrows (Exn.exception "stuck"))) 0 "jobs.xml" [] [] jobA [] enteredA
      initialisedA (initialisedA ++ [Event.simulate simA, Event.terminate simA]) ctxA
      (Exn.exception "stuck") ⟨rfl, rfl⟩ rfl rfl rfl rfl).2.2.2 rfl rfl).2 rfl⟩

/-- C9 as stated fails on a sample pass whose `clean` throws a `DYN::Error`: the pass throws
it and its trace holds no event at `ERROR` level.  Nor is a message printed when `init`
throws an object no handler is written for, or when the first hook throws in the handler of
`DYN::Error`. -/
theorem clean_failure_is_not_logged :
    cleanThrows noReference (initialisedA ++ [Event.simulate simA, Event.terminate simA])
      (Event.clean simA) = some noReference ∧
    pass (sampleWorld [jobA] (cleanThrows noReference)) 0 "jobs.xml" =
      (Except.error noReference,
        initialisedA ++ [Event.simulate simA, Event.terminate simA, Event.clean simA]) ∧
    (pass (sampleWorld [jobA] (cleanThrows noReference)) 0 "jobs.xml").2.filter
      Event.isError = [] ∧
    pass (sampleWorld [jobA] (initThrows (Exn.unlisted 0))) 0 "jobs.xml" =
      (Except.error (Exn.unlisted 0), initialisedA) ∧
    pass (sampleWorld [jobA] (simulateAndHookThrow noReference (Exn.exception "hook"))) 0
      "jobs.xml" = (Except.error (Exn.exception "hook"),
        initialisedA ++ [Event.simulate simA, Event.activateExportIIDM simA false]) :=
  ⟨rfl, rfl, rfl, rfl, rfl⟩

/-- C9 (amended) at a sample pass whose `init` throws a `std::exception`, and at one whose
`simulate` throws a `const char*`: the message is printed at `ERROR` level and the pass
throws the object. -/
theorem handled_failure_is_logged_witness :
    Reaches (sampleWorld [jobA] (initThrows (Exn.exception "init failed"))) 0 "jobs.xml"
      [] jobA [] [] ∧
    pass (sampleWorld [jobA] (initThrows (Exn.exception "init failed"))) 0 "jobs.xml" =
      (Except.error (Exn.exception "init failed"), loggedA initialisedA "init failed") ∧
    pass (sampleWorld [jobA] (simulateThrows (Exn.cstr "diverged"))) 0 "jobs.xml" =
      (Except.error (Exn.cstr "diverged"),
        loggedA (initialisedA ++ [Event.simulate simA]) "diverged" ++
          [Event.terminate simA]) :=
  ⟨⟨rfl, rfl⟩,
    (handled_failure_is_logged (sampleWorld [jobA] (initThrows (Exn.exception "init failed")))
      0 "jobs.xml" [] [] jobA [] enteredA [] [] initialisedA ctxA
      (Exn.exception "init failed") ⟨rfl, rfl⟩ rfl).1 rfl rfl,
    (handled_failure_is_logged (sampleWorld [jobA] (simulateThrows (Exn.cstr "diverged")))
      0 "jobs.xml" [] [] jobA [] enteredA initialisedA (initialisedA ++ [Event.simulate simA])
      (initialisedA ++ [Event.simulate simA]) ctxA (Exn.cstr "diverged")
      ⟨rfl, rfl⟩ rfl).2 rfl rfl rfl rfl⟩

/-- C4 at the scenario of one job `A` run by the thread of number 0, every stage
succeeding. -/
theorem all_stages_succeed_pass_witness :
    StagesSucceed (sampleWorld [jobA] neverThrows) 0 "/work" "/resources" "en_GB" [jobA]
      [] ∧
    pass (sampleWorld [jobA] neverThrows) 0 "jobs.xml" =
      (Except.ok (),
        [Event.trace SeverityLevel.INFO (Output.log LogKey.LaunchingJob "A"),
         Event.clog (Output.log LogKey.LaunchingJob "A"),
         Event.setOutputsDirectory "A" "outA0",
         Event.setCompileDir "A" "compileA0",
         Event.newSimulation simA ctxA,
         Event.init simA, Event.simulate simA, Event.terminate simA, Event.clean simA,
         Event.trace SeverityLevel.INFO (Output.log LogKey.EndOfJob "A"),
         Event.clog (Output.log LogKey.EndOfJob "A"),
         Event.trace SeverityLevel.INFO (Output.log LogKey.JobSuccess "A"),
         Event.clog (Output.log LogKey.JobSuccess "A"),
         Event.trace SeverityLevel.INFO (Output.log LogKey.ResultFolder "/work/outA0"),
         Event.clog (Output.log LogKey.ResultFolder "/work/outA0")]) ∧
    (pass (sampleWorld [jobA] neverThrows) 0 "jobs.xml").2.filter Event.isStage =
      [Event.init simA, Event.simulate simA, Event.terminate simA, Event.clean simA] :=
  ⟨⟨rfl, rfl, rfl, rfl, rfl, trivial⟩,
    (all_stages_succeed_pass (sampleWorld [jobA] neverThrows) 0 "jobs.xml" [jobA]
      "/resources" "en_GB" rfl (by decide) rfl rfl
      ⟨rfl, rfl, rfl, rfl, rfl, trivial⟩).1.trans rfl,
    (all_stages_succeed_pass (sampleWorld [jobA] neverThrows) 0 "jobs.xml" [jobA]
      "/resources" "en_GB" rfl (by decide) rfl rfl
      ⟨rfl, rfl, rfl, rfl, rfl, trivial⟩).2.trans rfl⟩

/-- C10 as stated fails when the thread of number 0 executes both of two iterations: both
passes over the jobs `A` and `B` set the directories suffixed `0`. -/
theorem one_thread_runs_both_passes :
    (dispatch (sampleWorld [jobA, jobB] neverThrows) 2 (fun _ => 0) "jobs.xml").map
      (fun p => directories p.2) =
      [["outA0", "compileA0", "outB0", "compileB0"],
       ["outA0", "compileA0", "outB0", "compileB0"]] := by
  decide

/-- C10 (amended) at two iterations, iteration `i` executed by the thread of number `i`: the
passes over the jobs `A` and `B` set the directories suffixed `0` and `1`. -/
theorem passes_use_thread_numbers_witness :
    (dispatch (sampleWorld [jobA, jobB] neverThrows) 2 id "jobs.xml").map
      (fun p => directories p.2) =
      [["outA0", "compileA0", "outB0", "compileB0"],
       ["outA1", "compileA1", "outB1", "compileB1"]] ∧
    (dispatch (sampleWorld [jobA, jobB] neverThrows) 2 id "jobs.xml").length = 2 ∧
    directories (pass (sampleWorld [jobA, jobB] neverThrows) (Int.ofNat (id 0))
      "jobs.xml").2 = ["outA0", "compileA0", "outB0", "compileB0"] :=
  ⟨by decide,
    (passes_use_thread_numbers (sampleWorld [jobA, jobB] neverThrows) 2 id "jobs.xml" 0 1
      (by decide) (by decide) (by decide)).1,
    ((passes_use_thread_numbers (sampleWorld [jobA, jobB] neverThrows) 2 id "jobs.xml" 0 1
      (by decide) (by decide) (by decide)).2.2.2.1 rfl).trans rfl⟩

end Dynawo
